import Mathlib

/-!
# EEG acquisition core: ring buffer, blink detector, filter and estimator

A shallow embedding of `components/adc/adc.c` (with the constants of
`components/adc/include/adc.h`) and of the handler and the notification task
of `components/wifi/ble.c`.  The C globals and the function-local
`static` variables of `detect_events` become the fields of one record; each C
function becomes a function from state to state.  The `float` code of the
bandpass filter and of the Goertzel estimator is embedded in exact arithmetic
over an arbitrary ordered field (see the section on the filter).

Machine integers are modelled by `Nat`/`Int` with the reduction the C
operation performs written out: `size_t` and `uint32_t` arithmetic is taken
modulo `2^32` (the target is a 32-bit ESP32), and the conversion of an `int`
to `int16_t` is reduction into `[-32768, 32767]`.
-/

namespace EEG

/-- The constant `BUFFER_SIZE` of adc.h (256): length of the circular buffer. -/
def BUFFER_SIZE : Nat := 256

/-- The constant `REFRACTORY_PERIOD_SAMPLES` of adc.h (20). -/
def REFRACTORY_PERIOD_SAMPLES : Nat := 20

/-- Number of values of a 32-bit unsigned (`size_t`, `uint32_t`) object. -/
def UINT32_MOD : Nat := 4294967296

/-- Conversion of an `int` value to `int16_t`: reduction modulo `2^16` into
`[-32768, 32767]`. -/
def to_int16 (x : Int) : Int := (x + 32768) % 65536 - 32768

/-- Membership in the range of `int16_t`. -/
def is_int16 (x : Int) : Prop := -32768 ≤ x ∧ x ≤ 32767

instance (x : Int) : Decidable (is_int16 x) := by
  unfold is_int16; infer_instance

/-- The globals of `adc.c` that the buffer and the detector use, together with
the three `static` locals of `detect_events`. -/
structure AdcState where
  /-- The global `int16_t adc_buffer[BUFFER_SIZE]`. -/
  adc_buffer : List Int
  /-- The global `volatile size_t buffer_index`. -/
  buffer_index : Nat
  /-- The global `volatile uint32_t blink_count`. -/
  blink_count : Nat
  /-- The global `volatile uint8_t attention_level`. -/
  attention_level : Nat
  /-- The local `static int16_t prev_sample` of `detect_events`. -/
  prev_sample : Int
  /-- The local `static uint8_t refractory` of `detect_events`. -/
  refractory : Nat
  /-- The local `static size_t sample_counter` of `detect_events`. -/
  sample_counter : Nat
  deriving DecidableEq, Repr

/-- The state at program start: zero-initialised globals and the initialisers
of the `static` locals (`prev_sample = 0`,
`refractory = REFRACTORY_PERIOD_SAMPLES`, `sample_counter = 0`). -/
def init_state : AdcState :=
  { adc_buffer := List.replicate BUFFER_SIZE 0
    buffer_index := 0
    blink_count := 0
    attention_level := 0
    prev_sample := 0
    refractory := REFRACTORY_PERIOD_SAMPLES
    sample_counter := 0 }

/-- The part of `reset_adc_state` that acts on the fields above: `memset` of
the buffer, `buffer_index = 0`, `blink_count = 0`, `attention_level = 0`.  The
`static` locals of `detect_events` are out of its reach and keep their
values. -/
def reset_adc_state (s : AdcState) : AdcState :=
  { s with
    adc_buffer := List.replicate BUFFER_SIZE 0
    buffer_index := 0
    blink_count := 0
    attention_level := 0 }

/-- The function `adc_push_sample`:
`adc_buffer[buffer_index] = sample; buffer_index = (buffer_index + 1) % BUFFER_SIZE;`. -/
def adc_push_sample (s : AdcState) (sample : Int) : AdcState :=
  { s with
    adc_buffer := s.adc_buffer.set s.buffer_index sample
    buffer_index := ((s.buffer_index + 1) % UINT32_MOD) % BUFFER_SIZE }

/-- A sequence of calls to `adc_push_sample`, first sample first. -/
def push_all (s : AdcState) (samples : List Int) : AdcState :=
  samples.foldl adc_push_sample s

/-- The index computed by `adc_filtering`,
`(buffer_index - 1 + BUFFER_SIZE) % BUFFER_SIZE`, evaluated left to right in
`size_t` arithmetic: the subtraction wraps modulo `2^32` when
`buffer_index` is 0. -/
def latest_idx (buffer_index : Nat) : Nat :=
  (((buffer_index + (UINT32_MOD - 1)) % UINT32_MOD + BUFFER_SIZE) % UINT32_MOD) % BUFFER_SIZE

/-- The read `adc_buffer[latest_idx]` of `adc_filtering`; `none` stands for an
access outside the array. -/
def latest_sample (s : AdcState) : Option Int :=
  s.adc_buffer[latest_idx s.buffer_index]?

/-- The function `detect_events`.  The argument `score` stands for
`compute_alpha_score`, whose floating-point body plays no part in the blink
logic; it is called as `score adc_buffer BUFFER_SIZE`.

The derivative is stored in an `int16_t`, so the `int` difference is
converted with `to_int16`; `abs` is then taken in `int`. -/
def detect_events (score : List Int → Nat → Nat) (s : AdcState)
    (filtered_current : Int) : AdcState :=
  let derivative : Int := to_int16 (filtered_current - s.prev_sample)
  let fire : Bool := (s.refractory == 0) && decide (20 < derivative.natAbs)
  let blink_count := if fire then (s.blink_count + 1) % UINT32_MOD else s.blink_count
  let refractory := if fire then 20 else s.refractory
  let refractory := if refractory ≠ 0 then refractory - 1 else refractory
  let sample_counter := (s.sample_counter + 1) % UINT32_MOD
  if 50 ≤ sample_counter then
    { s with
      blink_count := blink_count
      refractory := refractory
      prev_sample := filtered_current
      attention_level := score s.adc_buffer BUFFER_SIZE
      sample_counter := 0 }
  else
    { s with
      blink_count := blink_count
      refractory := refractory
      prev_sample := filtered_current
      sample_counter := sample_counter }

/-- A sequence of calls to `detect_events`, first sample first. -/
def detect_all (score : List Int → Nat → Nat) (s : AdcState)
    (samples : List Int) : AdcState :=
  samples.foldl (detect_events score) s

/-- The values of `blink_count` observed after each call of a sequence of
calls to `detect_events`. -/
def blink_trace (score : List Int → Nat → Nat) (s : AdcState) :
    List Int → List Nat
  | [] => []
  | x :: xs =>
    (detect_events score s x).blink_count :: blink_trace score (detect_events score s x) xs

/-- The condition of the `if` in `detect_events`:
`!refractory && abs(derivative) > 20`, with the derivative as stored in its
`int16_t`. -/
def fires (s : AdcState) (filtered_current : Int) : Prop :=
  s.refractory = 0 ∧ 20 < (to_int16 (filtered_current - s.prev_sample)).natAbs

instance (s : AdcState) (x : Int) : Decidable (fires s x) := by
  unfold fires; infer_instance

/-- Two states agree on what the blink logic reads and writes. -/
def same_detector (s t : AdcState) : Prop :=
  s.prev_sample = t.prev_sample ∧ s.refractory = t.refractory ∧ s.blink_count = t.blink_count

/-- The samples that `test_blink_detection_increments` (test_adc.c) feeds to
`detect_events`, in order: 20 of 1000, then 1030, 5 of 1020, 10 of 1060, 1090,
10 of 1060, 1030. -/
def blink_test_samples : List Int :=
  List.replicate 20 1000 ++ [1030] ++ List.replicate 5 1020 ++ List.replicate 10 1060
    ++ [1090] ++ List.replicate 10 1060 ++ [1030]

/-- The value of `blink_count` after the first `k` calls of the test sequence on
a fresh system. -/
def test_count_after (score : List Int → Nat → Nat) (k : Nat) : Nat :=
  (detect_all score init_state (blink_test_samples.take k)).blink_count

/-- A run of calls whose true difference from the previous sample never exceeds
the threshold: `|current - previous| <= 20` on each, starting from previous
value `p`. -/
def quiet : Int → List Int → Prop
  | _, [] => True
  | p, x :: xs => (x - p).natAbs ≤ 20 ∧ quiet x xs

/-! ## Filter, estimator and whole state

The `float` objects of `adc.c` are modelled in exact arithmetic: `F` is any
linearly ordered field with a floor function (the rationals for evaluation, the
reals for the Goertzel identity).  The rounding of the binary32 operations is
not modelled.  A conversion from `float` to an integer type returns `none`
where C leaves it undefined (the truncated value does not fit the type). -/

/-- The filter history: the globals `bp_x[0]`, `bp_x[1]`, `bp_y[0]`, `bp_y[1]`. -/
structure FilterState (F : Type) where
  /-- The global `bp_x[0]`, the previous input. -/
  bp_x0 : F
  /-- The global `bp_x[1]`, the input before that. -/
  bp_x1 : F
  /-- The global `bp_y[0]`, the previous output. -/
  bp_y0 : F
  /-- The global `bp_y[1]`, the output before that. -/
  bp_y1 : F

/-- The global `bp_a[1]`, -0.2162. -/
def bp_a1 {F : Type} [LinearOrderedField F] : F := -(2162 / 10000)

/-- The global `bp_a[2]`, 0.2174. -/
def bp_a2 {F : Type} [LinearOrderedField F] : F := 2174 / 10000

/-- The global `bp_b[0]`, 0.3913. -/
def bp_b0 {F : Type} [LinearOrderedField F] : F := 3913 / 10000

/-- The global `bp_b[1]`, 0.0. -/
def bp_b1 {F : Type} [LinearOrderedField F] : F := 0

/-- The global `bp_b[2]`, -0.3913. -/
def bp_b2 {F : Type} [LinearOrderedField F] : F := -(3913 / 10000)

/-- The integer part of a `float` in a conversion to an integer type: the
fractional part is discarded (truncation toward zero). -/
def trunc_toward_zero {F : Type} [LinearOrderedField F] [FloorRing F] (y : F) : Int :=
  if 0 ≤ y then ⌊y⌋ else ⌈y⌉

/-- The conversion `(int16_t)y` of a `float`: the truncated value when
`int16_t` can represent it, undefined otherwise. -/
def float_to_int16 {F : Type} [LinearOrderedField F] [FloorRing F] (y : F) : Option Int :=
  if is_int16 (trunc_toward_zero y) then some (trunc_toward_zero y) else none

/-- The conversion `(uint8_t)y` of a `float`: the truncated value when
`uint8_t` can represent it, undefined otherwise. -/
def float_to_uint8 {F : Type} [LinearOrderedField F] [FloorRing F] (y : F) : Option Nat :=
  if 0 ≤ trunc_toward_zero y ∧ trunc_toward_zero y ≤ 255
  then some (trunc_toward_zero y).toNat else none

/-- The value `y` that `apply_bandpass_iir` computes:
`bp_b[0]*x + bp_b[1]*bp_x[0] + bp_b[2]*bp_x[1] - bp_a[1]*bp_y[0] - bp_a[2]*bp_y[1]`
with `x = (float)input`. -/
def bandpass_output {F : Type} [LinearOrderedField F] (st : FilterState F) (input : Int) : F :=
  bp_b0 * (input : F) + bp_b1 * st.bp_x0 + bp_b2 * st.bp_x1 - bp_a1 * st.bp_y0
    - bp_a2 * st.bp_y1

/-- The function `apply_bandpass_iir`: the new filter history and the value
returned, `(int16_t)y`. -/
def apply_bandpass_iir {F : Type} [LinearOrderedField F] [FloorRing F]
    (st : FilterState F) (input : Int) : FilterState F × Option Int :=
  let x : F := (input : F)
  let y : F := bandpass_output st input
  ({ bp_x0 := x, bp_x1 := st.bp_x0, bp_y0 := y, bp_y1 := st.bp_y0 }, float_to_int16 y)

/-- The function `reset_filter_state`: both history arrays become zero. -/
def reset_filter_state {F : Type} [LinearOrderedField F] (_st : FilterState F) :
    FilterState F :=
  { bp_x0 := 0, bp_x1 := 0, bp_y0 := 0, bp_y1 := 0 }

/-- A sequence of calls to `apply_bandpass_iir`: the final history and the
values returned, first call first. -/
def filter_run {F : Type} [LinearOrderedField F] [FloorRing F] :
    FilterState F → List Int → FilterState F × List (Option Int)
  | st, [] => (st, [])
  | st, x :: xs =>
    ((filter_run (apply_bandpass_iir st x).1 xs).1,
      (apply_bandpass_iir st x).2 :: (filter_run (apply_bandpass_iir st x).1 xs).2)

/-- One pass of the loop of `compute_alpha_score` on the pair `(q1, q2)`:
`q0 = coeff * q1 - q2 + s; q2 = q1; q1 = q0`. -/
def goertzel_step {F : Type} [LinearOrderedField F] (coeff : F) (q : F × F) (w : Int) : F × F :=
  (coeff * q.1 - q.2 + (w : F), q.1)

/-- The pair `(q1, q2)` after the loop of `compute_alpha_score` over a window,
from `q1 = q2 = 0`. -/
def goertzel_state {F : Type} [LinearOrderedField F] (coeff : F) (window : List Int) : F × F :=
  window.foldl (goertzel_step coeff) (0, 0)

/-- The power that `compute_alpha_score` forms after the loop:
`q1 * q1 + q2 * q2 - q1 * q2 * coeff`. -/
def alpha_power {F : Type} [LinearOrderedField F] (coeff : F) (window : List Int) : F :=
  (goertzel_state coeff window).1 * (goertzel_state coeff window).1
    + (goertzel_state coeff window).2 * (goertzel_state coeff window).2
    - (goertzel_state coeff window).1 * (goertzel_state coeff window).2 * coeff

/-- The function `compute_alpha_score` on the first `len` samples of `window`.
The argument `coeff` is the value of `2.0f * cosf(2.0f * M_PI * 10.0f / SAMPLE_RATE_HZ)`,
which comes from the C library; the value returned is
`(uint8_t)fminf(100.0f, magnitude * 0.00001f)`. -/
def compute_alpha_score {F : Type} [LinearOrderedField F] [FloorRing F]
    (coeff : F) (window : List Int) (len : Nat) : Option Nat :=
  float_to_uint8 (min 100 (alpha_power coeff (window.take len) * (1 / 100000)))

/-- The score as `detect_events` stores it in `attention_level`. -/
def alpha_score_value {F : Type} [LinearOrderedField F] [FloorRing F]
    (coeff : F) (window : List Int) (len : Nat) : Nat :=
  (compute_alpha_score coeff window len).getD 0

/-- What the two tasks do to the state, one step at a time: the Sampler pushes
a sample, the Processor calls `detect_events`. -/
inductive Event where
  /-- A call `adc_push_sample(sample)`. -/
  | push (sample : Int)
  /-- A call `detect_events(filtered)`. -/
  | detect (filtered : Int)
  deriving DecidableEq, Repr

/-- One event applied to the state. -/
def step (score : List Int → Nat → Nat) (s : AdcState) : Event → AdcState
  | Event.push x => adc_push_sample s x
  | Event.detect x => detect_events score s x

/-- A sequence of events applied to the state, first event first. -/
def run (score : List Int → Nat → Nat) (s : AdcState) (events : List Event) : AdcState :=
  events.foldl (step score) s

/-- Number of calls to `detect_events` among the events. -/
def detect_calls : List Event → Nat
  | [] => 0
  | Event.push _ :: es => detect_calls es
  | Event.detect _ :: es => detect_calls es + 1

/-- The whole state of `adc.c`: the buffer, the metrics and the detector
statics, together with the filter history. -/
structure SystemState (F : Type) where
  /-- Buffer, cursor, metrics and detector statics. -/
  adc : AdcState
  /-- The filter history `bp_x`, `bp_y`. -/
  filter : FilterState F

/-- The function `reset_adc_state` on the whole state: `memset` of the
buffer, `buffer_index = 0`, `blink_count = 0`, `attention_level = 0`, then
`reset_filter_state()`. -/
def SystemState.reset_adc_state {F : Type} [LinearOrderedField F] (s : SystemState F) :
    SystemState F :=
  { adc := EEG.reset_adc_state s.adc, filter := reset_filter_state s.filter }

/-- The sum `x_0 w^(N-1) + x_1 w^(N-2) + ... + x_(N-1)` over a window, in Horner
form; used to relate the Goertzel recurrence to the DFT bin. -/
def horner (w : ℂ) (xs : List Int) : ℂ := xs.foldl (fun acc x => w * acc + (x : ℂ)) 0

/-- The state at program start with the filter history, which is
zero-initialised. -/
def init_system_state {F : Type} [LinearOrderedField F] : SystemState F :=
  { adc := init_state, filter := { bp_x0 := 0, bp_x1 := 0, bp_y0 := 0, bp_y1 := 0 } }

/-- A system on which 20 calls `detect_events(0)` were made from the initial
state, followed by `reset_adc_state`. -/
def used_then_reset (score : List Int → Nat → Nat) : SystemState ℚ :=
  SystemState.reset_adc_state
    { adc := detect_all score init_state (List.replicate 20 0)
      filter := init_system_state.filter }

/-! ## Sampler cycle -/

/-- The reading `adc_sampling` uses: the calibrated voltage when a calibration
handle exists (`cali` stands for `adc_cali_raw_to_voltage` with that handle),
otherwise the raw count. -/
def sampling_voltage (cali : Option (Int → Int)) (raw : Int) : Int :=
  match cali with
  | some f => f raw
  | none => raw

/-- Step 3 of one cycle of `adc_sampling`:
`adc_buffer[buffer_index] = (int16_t)(voltage * 10); buffer_index = (buffer_index + 1) % BUFFER_SIZE;`. -/
def adc_sampling_cycle (cali : Option (Int → Int)) (s : AdcState) (raw : Int) : AdcState :=
  { s with
    adc_buffer := s.adc_buffer.set s.buffer_index (to_int16 (sampling_voltage cali raw * 10))
    buffer_index := ((s.buffer_index + 1) % UINT32_MOD) % BUFFER_SIZE }

/-- The index `prev_idx = (buffer_index + BUFFER_SIZE - 1) % BUFFER_SIZE` of step 4
of `adc_sampling`, in `size_t` arithmetic, from the cursor after it advanced. -/
def sampling_prev_idx (buffer_index : Nat) : Nat :=
  (((buffer_index + BUFFER_SIZE) % UINT32_MOD + (UINT32_MOD - 1)) % UINT32_MOD) % BUFFER_SIZE

/-- The index `prev_idx - 1` with which the log statement of `adc_sampling`
reads `adc_buffer`, in `size_t` arithmetic. -/
def sampling_log_idx (buffer_index : Nat) : Nat :=
  (sampling_prev_idx buffer_index + (UINT32_MOD - 1)) % UINT32_MOD

/-- The indices with which one cycle of `adc_sampling` accesses `adc_buffer`,
for the cursor at the start of the cycle: the slot written, then the slot read
by the log statement. -/
def sampling_indices (buffer_index : Nat) : List Nat :=
  [buffer_index, sampling_log_idx (((buffer_index + 1) % UINT32_MOD) % BUFFER_SIZE)]

/-! ## What each task does to the buffer and the mutex -/

/-- The operations on `adc_mutex`, `adc_buffer` and `buffer_index` in the order
a task performs them. -/
inductive Action where
  /-- A call `xSemaphoreTake(adc_mutex, portMAX_DELAY)`. -/
  | take
  /-- A call `xSemaphoreGive(adc_mutex)`. -/
  | give
  /-- A read of a slot, or of all slots, of `adc_buffer`. -/
  | buffer_read
  /-- A write of a slot of `adc_buffer`. -/
  | buffer_write
  /-- A read of `buffer_index`. -/
  | cursor_read
  /-- A write of `buffer_index`. -/
  | cursor_write
  deriving DecidableEq, Repr

/-- One cycle of `adc_sampling`: take, write the slot at the cursor, advance the
cursor, give; then `prev_idx` is computed from the cursor and the log statement
reads a slot. -/
def adc_sampling_actions : List Action :=
  [Action.take, Action.cursor_read, Action.buffer_write, Action.cursor_read,
    Action.cursor_write, Action.give, Action.cursor_read, Action.buffer_read]

/-- What `detect_events` does to the buffer: when the window counter reaches 50
it passes the whole `adc_buffer` to `compute_alpha_score`. -/
def detect_events_actions (s : AdcState) : List Action :=
  if 50 ≤ (s.sample_counter + 1) % UINT32_MOD then [Action.buffer_read] else []

/-- One cycle of `adc_filtering`: take, read the cursor and the latest slot,
give; then `apply_bandpass_iir` (no access) and `detect_events`. -/
def adc_filtering_actions (s : AdcState) : List Action :=
  [Action.take, Action.cursor_read, Action.buffer_read, Action.give] ++ detect_events_actions s

/-- The accesses to the buffer or the cursor that a task makes while it does
not hold the mutex; `held` tells whether it holds it at the start. -/
def unlocked_accesses : Bool → List Action → List Action
  | _, [] => []
  | _, Action.take :: as => unlocked_accesses true as
  | _, Action.give :: as => unlocked_accesses false as
  | held, a :: as => if held then unlocked_accesses held as else a :: unlocked_accesses held as

/-! ## Notification task -/

/-- The constant `CHAR_UUID_BLINK_COUNT` of ble.c. -/
def CHAR_UUID_BLINK_COUNT : Nat := 0x2A56

/-- The constant `CHAR_UUID_ATTENTION_LEVEL` of ble.c. -/
def CHAR_UUID_ATTENTION_LEVEL : Nat := 0x2A57

/-- The globals of ble.c that the handler and the notification task use, with
the static `add_char_idx` and the statics `last_blink`, `last_attention` of
`ble_notifications`. -/
structure BleState where
  /-- The global `uint16_t service_handle`. -/
  service_handle : Nat
  /-- The global `esp_gatt_if_t gatts_if_global`. -/
  gatts_if_global : Nat
  /-- The global `uint16_t conn_id`; `0xFFFF` when no peer is connected. -/
  conn_id : Nat
  /-- The global `uint16_t blink_handle`. -/
  blink_handle : Nat
  /-- The global `uint16_t attention_handle`. -/
  attention_handle : Nat
  /-- The file-level `static int add_char_idx`. -/
  add_char_idx : Int
  /-- The local `static uint32_t last_blink` of `ble_notifications`. -/
  last_blink : Nat
  /-- The local `static uint8_t last_attention` of `ble_notifications`. -/
  last_attention : Nat
  deriving DecidableEq, Repr

/-- The initialisers of the globals and statics of ble.c. -/
def init_ble_state : BleState :=
  { service_handle := 0
    gatts_if_global := 0
    conn_id := 0xFFFF
    blink_handle := 0
    attention_handle := 0
    add_char_idx := 0
    last_blink := 0
    last_attention := 0 }

/-- The events of the GATT server that `gatts_event_handler` distinguishes, with
the fields of `param` it reads. -/
inductive GattsEvent where
  /-- The event `ESP_GATTS_REG_EVT`. -/
  | reg
  /-- The event `ESP_GATTS_CREATE_EVT` with `param->create.service_handle`. -/
  | create (service_handle : Nat)
  /-- The event `ESP_GATTS_ADD_CHAR_EVT` with whether `param->add_char.status` is
  `ESP_GATT_OK`, and `param->add_char.attr_handle`. -/
  | add_char (status_ok : Bool) (attr_handle : Nat)
  /-- The event `ESP_GATTS_START_EVT`. -/
  | start
  /-- The event `ESP_GATTS_CONNECT_EVT` with `param->connect.conn_id`. -/
  | connect (conn_id : Nat)
  /-- The event `ESP_GATTS_DISCONNECT_EVT`. -/
  | disconnect
  /-- Any other event. -/
  | other
  deriving DecidableEq, Repr

/-- The function `gatts_event_handler` on the globals; the calls into the BLE
stack it makes are not part of the state. -/
def gatts_event_handler (b : BleState) (gatts_if : Nat) : GattsEvent → BleState
  | GattsEvent.create h => { b with gatts_if_global := gatts_if, service_handle := h,
                                    add_char_idx := 0 }
  | GattsEvent.add_char true h =>
    if b.add_char_idx = 0 then
      { b with gatts_if_global := gatts_if, blink_handle := h,
               add_char_idx := b.add_char_idx + 1 }
    else
      { b with gatts_if_global := gatts_if, attention_handle := h,
               add_char_idx := b.add_char_idx + 1 }
  | GattsEvent.connect c => { b with gatts_if_global := gatts_if, conn_id := c }
  | GattsEvent.disconnect => { b with gatts_if_global := gatts_if, conn_id := 0xFFFF }
  | _ => { b with gatts_if_global := gatts_if }

/-- A sequence of events handled with the same interface number. -/
def handle_all (b : BleState) (gatts_if : Nat) (events : List GattsEvent) : BleState :=
  events.foldl (fun st e => gatts_event_handler st gatts_if e) b

/-- The arguments of one call `esp_ble_gatts_send_indicate(gatts_if, conn_id,
attr_handle, value_len, value, need_confirm)`; `value` holds the `value_len`
bytes. -/
structure Indication where
  /-- The argument `gatts_if`. -/
  gatts_if : Nat
  /-- The argument `conn_id`. -/
  conn_id : Nat
  /-- The argument `attr_handle`. -/
  attr_handle : Nat
  /-- The bytes sent. -/
  value : List Nat
  /-- The argument `need_confirm`. -/
  need_confirm : Bool
  deriving DecidableEq, Repr

/-- The four bytes `blink_data[0..3]` that `ble_notifications` packs:
`(uint8_t)(v & 0xFF)`, `(uint8_t)((v >> 8) & 0xFF)`, `(uint8_t)((v >> 16) & 0xFF)`,
`(uint8_t)((v >> 24) & 0xFF)`. -/
def pack_blink_data (v : Nat) : List Nat :=
  [(v &&& 0xFF) % 256, ((v >>> 8) &&& 0xFF) % 256, ((v >>> 16) &&& 0xFF) % 256,
    ((v >>> 24) &&& 0xFF) % 256]

/-- The byte `attn_data[0] = attention_level`. -/
def pack_attn_data (attention_level : Nat) : List Nat := [attention_level % 256]

/-- The call that sends the blink count. -/
def blink_indication (b : BleState) (blink_count : Nat) : Indication :=
  { gatts_if := b.gatts_if_global, conn_id := b.conn_id, attr_handle := CHAR_UUID_BLINK_COUNT,
    value := pack_blink_data blink_count, need_confirm := false }

/-- The call that sends the attention level. -/
def attention_indication (b : BleState) (attention_level : Nat) : Indication :=
  { gatts_if := b.gatts_if_global, conn_id := b.conn_id,
    attr_handle := CHAR_UUID_ATTENTION_LEVEL,
    value := pack_attn_data attention_level, need_confirm := false }

/-- One pass of the loop of `ble_notifications` for the current values of
`blink_count` and `attention_level`: the new statics and the calls to
`esp_ble_gatts_send_indicate`, in order. -/
def ble_notifications_pass (b : BleState) (blink_count attention_level : Nat) :
    BleState × List Indication :=
  if b.conn_id ≠ 0xFFFF ∧ b.blink_handle ≠ 0 ∧ b.attention_handle ≠ 0 then
    ({ b with
        last_blink := if blink_count > b.last_blink then blink_count else b.last_blink
        last_attention :=
          if attention_level ≠ b.last_attention then attention_level else b.last_attention },
      (if blink_count > b.last_blink then [blink_indication b blink_count] else [])
        ++ (if attention_level ≠ b.last_attention
            then [attention_indication b attention_level] else []))
  else (b, [])

/-! ## Ring buffer cursor -/

theorem push_all_nil (s : AdcState) : push_all s [] = s := rfl

theorem push_all_append (s : AdcState) (xs ys : List Int) :
    push_all s (xs ++ ys) = push_all (push_all s xs) ys := by
  simp [push_all, List.foldl_append]

theorem push_all_snoc (s : AdcState) (xs : List Int) (x : Int) :
    push_all s (xs ++ [x]) = adc_push_sample (push_all s xs) x := by
  simp [push_all, List.foldl_append]

theorem push_all_length (s : AdcState) (xs : List Int) :
    (push_all s xs).adc_buffer.length = s.adc_buffer.length := by
  induction xs generalizing s with
  | nil => rfl
  | cons x xs ih =>
    show (push_all (adc_push_sample s x) xs).adc_buffer.length = _
    rw [ih]
    simp [adc_push_sample]

theorem push_all_index (s : AdcState) (xs : List Int) :
    (push_all s xs).buffer_index = if xs = [] then s.buffer_index
      else (s.buffer_index + xs.length) % 256 := by
  induction xs using List.reverseRecOn with
  | nil => simp [push_all]
  | append_singleton xs x ih =>
    rw [push_all_snoc]
    simp only [adc_push_sample, ih, UINT32_MOD, BUFFER_SIZE]
    by_cases h : xs = []
    · subst h; simp; omega
    · simp [h]; omega

theorem reset_buffer_length (s0 : AdcState) :
    (reset_adc_state s0).adc_buffer.length = 256 := by
  show (List.replicate BUFFER_SIZE (0 : Int)).length = 256
  rw [List.length_replicate]
  rfl

theorem push_all_reset_index (s0 : AdcState) (xs : List Int) :
    (push_all (reset_adc_state s0) xs).buffer_index = xs.length % 256 := by
  rw [push_all_index]
  by_cases hs : xs = []
  · subst hs; rfl
  · rw [if_neg hs]
    show (0 + xs.length) % 256 = xs.length % 256
    rw [Nat.zero_add]

/-- C1. From the state left by `reset_adc_state` (so `buffer_index = 0`), after
any sequence of `N` calls to `adc_push_sample`, with any sample values,
`buffer_index` equals `N mod 256`; in particular it is 3 after any 3 pushes
and 0 again after any 256 pushes (the samples being `f 0, f 1, ...` for an
arbitrary `f`). -/
theorem buffer_index_after_pushes (s0 : AdcState) (samples : List Int) (f : Nat → Int) :
    (push_all (reset_adc_state s0) samples).buffer_index = samples.length % 256
    ∧ (push_all (reset_adc_state s0) ((List.range 3).map f)).buffer_index = 3
    ∧ (push_all (reset_adc_state s0) ((List.range 256).map f)).buffer_index = 0 := by
  refine ⟨push_all_reset_index s0 samples, ?_, ?_⟩
  · rw [push_all_reset_index, List.length_map, List.length_range]
  · rw [push_all_reset_index, List.length_map, List.length_range]

/-! ## Ring buffer contents -/

/-- Every sample pushed among the last 256 is found in the slot given by its
position modulo 256. -/
theorem push_all_slot (s0 : AdcState) (xs : List Int) :
    ∀ j, j < xs.length → xs.length ≤ j + 256 →
      (push_all (reset_adc_state s0) xs).adc_buffer[j % 256]? = xs[j]? := by
  induction xs using List.reverseRecOn with
  | nil => intro j hj; simp at hj
  | append_singleton xs x ih =>
    intro j hj hw
    rw [push_all_snoc]
    have hlen : (push_all (reset_adc_state s0) xs).adc_buffer.length = 256 := by
      rw [push_all_length, reset_buffer_length]
    have hidx := push_all_reset_index s0 xs
    simp only [List.length_append, List.length_singleton] at hj hw
    simp only [adc_push_sample, hidx]
    rw [List.getElem?_set]
    by_cases hjx : j = xs.length
    · subst hjx
      simp [hlen]
      omega
    · have hlt : j < xs.length := by omega
      have hne : ¬ (xs.length % 256 = j % 256) := by omega
      rw [if_neg hne, ih j hlt (by omega), List.getElem?_append_left hlt]

/-- C2. From the state left by `reset_adc_state`, after pushing
`s_0 ... s_(N-1)` with `adc_push_sample` for any `N >= 256`, every slot `i` in
`[0,256)` of `adc_buffer` holds `s_j` where `j` is the largest index below `N`
with `j mod 256 = i`; so the buffer (still of 256 slots) holds exactly the last
256 pushed values, and reading slots `cursor, cursor+1, ...` (mod 256) yields
them from oldest (`s_(N-256)`) to newest (`s_(N-1)`). -/
theorem buffer_holds_last_256 (s0 : AdcState) (samples : List Int)
    (h : 256 ≤ samples.length) :
    (∀ i, i < 256 → ∃ j, j < samples.length ∧ j % 256 = i
        ∧ (∀ k, k < samples.length → k % 256 = i → k ≤ j)
        ∧ (push_all (reset_adc_state s0) samples).adc_buffer[i]? = samples[j]?)
    ∧ (∀ k, k < 256 →
        (push_all (reset_adc_state s0) samples).adc_buffer[
          ((push_all (reset_adc_state s0) samples).buffer_index + k) % 256]?
          = samples[samples.length - 256 + k]?)
    ∧ (push_all (reset_adc_state s0) samples).adc_buffer.length = 256 := by
  refine ⟨?_, ?_, ?_⟩
  · intro i hi
    refine ⟨samples.length - 256 + (i + 256 - samples.length % 256) % 256, ?_, ?_, ?_, ?_⟩
    · omega
    · omega
    · intro k hk hki; omega
    · have hslot := push_all_slot s0 samples
        (samples.length - 256 + (i + 256 - samples.length % 256) % 256)
        (by omega) (by omega)
      have hmod : (samples.length - 256 + (i + 256 - samples.length % 256) % 256) % 256 = i := by
        omega
      rw [hmod] at hslot
      exact hslot
  · intro k hk
    rw [push_all_reset_index]
    have hslot := push_all_slot s0 samples (samples.length - 256 + k) (by omega) (by omega)
    have hmod : (samples.length - 256 + k) % 256 = (samples.length % 256 + k) % 256 := by
      omega
    rw [hmod] at hslot
    exact hslot
  · rw [push_all_length, reset_buffer_length]

/-- Witness for C2: 300 pushes of the samples `0, 1, ..., 299` onto the
initial state. -/
theorem buffer_holds_last_256_witness :
    256 ≤ ((List.range 300).map Int.ofNat).length
    ∧ (∀ i, i < 256 → ∃ j, j < ((List.range 300).map Int.ofNat).length ∧ j % 256 = i
        ∧ (∀ k, k < ((List.range 300).map Int.ofNat).length → k % 256 = i → k ≤ j)
        ∧ (push_all (reset_adc_state init_state)
            ((List.range 300).map Int.ofNat)).adc_buffer[i]?
          = ((List.range 300).map Int.ofNat)[j]?)
    ∧ (∀ k, k < 256 →
        (push_all (reset_adc_state init_state) ((List.range 300).map Int.ofNat)).adc_buffer[
          ((push_all (reset_adc_state init_state)
            ((List.range 300).map Int.ofNat)).buffer_index + k) % 256]?
          = ((List.range 300).map Int.ofNat)[((List.range 300).map Int.ofNat).length - 256 + k]?)
    ∧ (push_all (reset_adc_state init_state)
        ((List.range 300).map Int.ofNat)).adc_buffer.length = 256 :=
  ⟨by rw [List.length_map, List.length_range]; decide,
   buffer_holds_last_256 init_state ((List.range 300).map Int.ofNat)
     (by rw [List.length_map, List.length_range]; decide)⟩

/-! ## Latest sample -/

/-- C3. For every buffer state (256 slots) with `buffer_index` in `[0,256)` and
every sample `s`, after a push of `s` the index the Processor computes for the
latest sample, `(buffer_index - 1 + 256) mod 256` in unsigned `size_t`
arithmetic, lies in `[0,256)` and the slot it reads holds `s`.  The index is
the slot just written, and the cursor after the push is
`(buffer_index + 1) mod 256`, so the case of a push that wraps the cursor from
255 to 0 is included. -/
theorem latest_sample_after_push (s : AdcState) (sample : Int)
    (hlen : s.adc_buffer.length = 256) (hidx : s.buffer_index < 256) :
    latest_idx (adc_push_sample s sample).buffer_index < 256
    ∧ latest_sample (adc_push_sample s sample) = some sample
    ∧ latest_idx (adc_push_sample s sample).buffer_index = s.buffer_index
    ∧ (adc_push_sample s sample).buffer_index = (s.buffer_index + 1) % 256 := by
  have hnew : (adc_push_sample s sample).buffer_index = (s.buffer_index + 1) % 256 := by
    simp only [adc_push_sample, UINT32_MOD, BUFFER_SIZE]
    omega
  have hlatest : latest_idx (adc_push_sample s sample).buffer_index = s.buffer_index := by
    rw [hnew]
    simp only [latest_idx, UINT32_MOD, BUFFER_SIZE]
    omega
  refine ⟨by rw [hlatest]; exact hidx, ?_, hlatest, hnew⟩
  unfold latest_sample
  rw [hlatest]
  simp only [adc_push_sample]
  rw [List.getElem?_set]
  simp [hlen, hidx]

/-- Witness for C3: the cursor stands at 255, so the push wraps it to 0 and the
Processor's index is computed from `0 - 1` in `size_t`. -/
theorem latest_sample_after_push_witness :
    ({ init_state with buffer_index := 255 } : AdcState).adc_buffer.length = 256
    ∧ ({ init_state with buffer_index := 255 } : AdcState).buffer_index < 256
    ∧ latest_idx (adc_push_sample { init_state with buffer_index := 255 } 42).buffer_index < 256
    ∧ latest_sample (adc_push_sample { init_state with buffer_index := 255 } 42) = some 42
    ∧ latest_idx (adc_push_sample { init_state with buffer_index := 255 } 42).buffer_index
        = ({ init_state with buffer_index := 255 } : AdcState).buffer_index
    ∧ (adc_push_sample { init_state with buffer_index := 255 } 42).buffer_index
        = (({ init_state with buffer_index := 255 } : AdcState).buffer_index + 1) % 256 :=
  ⟨List.length_replicate _ _, by decide,
   latest_sample_after_push { init_state with buffer_index := 255 } 42
     (List.length_replicate _ _) (by decide)⟩

/-! ## Blink detector: one call -/

theorem detect_events_blink_count (score : List Int → Nat → Nat) (s : AdcState) (x : Int) :
    (detect_events score s x).blink_count
      = if fires s x then (s.blink_count + 1) % UINT32_MOD else s.blink_count := by
  unfold detect_events fires
  by_cases h50 : 50 ≤ (s.sample_counter + 1) % UINT32_MOD
  · by_cases hr : s.refractory = 0 <;>
      by_cases hd : 20 < (to_int16 (x - s.prev_sample)).natAbs <;>
      simp [h50, hr, hd]
  · by_cases hr : s.refractory = 0 <;>
      by_cases hd : 20 < (to_int16 (x - s.prev_sample)).natAbs <;>
      simp [h50, hr, hd]

theorem detect_events_refractory (score : List Int → Nat → Nat) (s : AdcState) (x : Int) :
    (detect_events score s x).refractory
      = if fires s x then 19 else s.refractory - 1 := by
  unfold detect_events fires
  by_cases h50 : 50 ≤ (s.sample_counter + 1) % UINT32_MOD
  · by_cases hr : s.refractory = 0 <;>
      by_cases hd : 20 < (to_int16 (x - s.prev_sample)).natAbs <;>
      simp [h50, hr, hd]
  · by_cases hr : s.refractory = 0 <;>
      by_cases hd : 20 < (to_int16 (x - s.prev_sample)).natAbs <;>
      simp [h50, hr, hd]

theorem detect_events_prev_sample (score : List Int → Nat → Nat) (s : AdcState) (x : Int) :
    (detect_events score s x).prev_sample = x := by
  unfold detect_events
  by_cases h50 : 50 ≤ (s.sample_counter + 1) % UINT32_MOD
  · simp [h50]
  · simp [h50]

/-- On a difference that fits `int16_t` the stored derivative is the true
difference. -/
theorem to_int16_of_is_int16 (x : Int) (h : is_int16 x) : to_int16 x = x := by
  unfold is_int16 at h
  unfold to_int16
  omega

/-- When the difference of the two samples fits `int16_t`, one call performs
`blink_count++` exactly when the detector is Armed and the true difference
exceeds 20 in magnitude, and leaves `blink_count` alone otherwise. -/
theorem blink_step_when_difference_fits (score : List Int → Nat → Nat) (s : AdcState)
    (x : Int) (hfit : is_int16 (x - s.prev_sample)) :
    (detect_events score s x).blink_count
      = if s.refractory = 0 ∧ 20 < (x - s.prev_sample).natAbs
        then (s.blink_count + 1) % UINT32_MOD else s.blink_count := by
  have hf : fires s x ↔ s.refractory = 0 ∧ 20 < (x - s.prev_sample).natAbs := by
    unfold fires
    rw [to_int16_of_is_int16 _ hfit]
  rw [detect_events_blink_count]
  by_cases h : fires s x
  · rw [if_pos h, if_pos (hf.mp h)]
  · rw [if_neg h, if_neg (fun h2 => h (hf.mpr h2))]

/-- The uint32 increment always changes the counter. -/
theorem uint32_succ_ne (n : Nat) : (n + 1) % UINT32_MOD ≠ n := by
  unfold UINT32_MOD
  omega

/-! ## Blink detector: sequences of calls -/

theorem fires_congr (s t : AdcState) (x : Int) (h : same_detector s t) :
    fires s x ↔ fires t x := by
  obtain ⟨hp, hr, _⟩ := h
  unfold fires
  rw [hp, hr]

/-- The blink logic does not depend on the attention score. -/
theorem detect_events_same (score1 score2 : List Int → Nat → Nat) (s t : AdcState) (x : Int)
    (h : same_detector s t) :
    same_detector (detect_events score1 s x) (detect_events score2 t x) := by
  have hf := fires_congr s t x h
  obtain ⟨_, hr, hc⟩ := h
  refine ⟨?_, ?_, ?_⟩
  · rw [detect_events_prev_sample, detect_events_prev_sample]
  · rw [detect_events_refractory, detect_events_refractory, hr]
    by_cases hs : fires s x
    · rw [if_pos hs, if_pos (hf.mp hs)]
    · rw [if_neg hs, if_neg (fun ht => hs (hf.mpr ht))]
  · rw [detect_events_blink_count, detect_events_blink_count, hc]
    by_cases hs : fires s x
    · rw [if_pos hs, if_pos (hf.mp hs)]
    · rw [if_neg hs, if_neg (fun ht => hs (hf.mpr ht))]

theorem detect_all_same (score1 score2 : List Int → Nat → Nat) (xs : List Int) :
    ∀ s t : AdcState, same_detector s t →
      same_detector (detect_all score1 s xs) (detect_all score2 t xs) := by
  induction xs with
  | nil => intro s t h; exact h
  | cons x xs ih =>
    intro s t h
    exact ih _ _ (detect_events_same score1 score2 s t x h)

theorem blink_trace_same (score1 score2 : List Int → Nat → Nat) (xs : List Int) :
    ∀ s t : AdcState, same_detector s t →
      blink_trace score1 s xs = blink_trace score2 t xs := by
  induction xs with
  | nil => intro s t _; rfl
  | cons x xs ih =>
    intro s t h
    have hstep := detect_events_same score1 score2 s t x h
    show (detect_events score1 s x).blink_count :: blink_trace score1 (detect_events score1 s x) xs
      = (detect_events score2 t x).blink_count :: blink_trace score2 (detect_events score2 t x) xs
    rw [ih _ _ hstep, hstep.2.2]

theorem same_detector_refl (s : AdcState) : same_detector s s := ⟨rfl, rfl, rfl⟩

theorem detect_all_snoc (score : List Int → Nat → Nat) (s : AdcState) (xs : List Int) (x : Int) :
    detect_all score s (xs ++ [x]) = detect_events score (detect_all score s xs) x := by
  simp [detect_all, List.foldl_append]

/-- While the refractory counter covers the calls, none of them changes
`blink_count`, whatever the samples. -/
theorem blocked_while_refractory (score : List Int → Nat → Nat) (xs : List Int) :
    ∀ s : AdcState, xs.length ≤ s.refractory →
      (detect_all score s xs).blink_count = s.blink_count
      ∧ (detect_all score s xs).refractory = s.refractory - xs.length := by
  induction xs with
  | nil => intro s _; exact ⟨rfl, rfl⟩
  | cons x xs ih =>
    intro s h
    simp only [List.length_cons] at h
    have hnf : ¬ fires s x := by
      intro hf
      have := hf.1
      omega
    have hb : (detect_events score s x).blink_count = s.blink_count := by
      rw [detect_events_blink_count, if_neg hnf]
    have hr : (detect_events score s x).refractory = s.refractory - 1 := by
      rw [detect_events_refractory, if_neg hnf]
    obtain ⟨h1, h2⟩ := ih (detect_events score s x) (by rw [hr]; omega)
    refine ⟨?_, ?_⟩
    · show (detect_all score (detect_events score s x) xs).blink_count = _
      rw [h1, hb]
    · show (detect_all score (detect_events score s x) xs).refractory = _
      rw [h2, hr, List.length_cons]
      omega

/-! ## Blink detector: the claims -/

/-- C4 (the code at the failing input). On a fresh system 20 calls with the
sample -32768 leave the detector Armed (`refractory = 0`) with
`prev_sample = -32768` and `blink_count = 0`.  The next call receives 32767:
the true difference is 65535 > 20, but the derivative stored in `int16_t` is
-1 and `blink_count` stays 0. -/
theorem blink_missed_when_difference_overflows (score : List Int → Nat → Nat) :
    (detect_all score init_state (List.replicate 20 (-32768))).refractory = 0
    ∧ (detect_all score init_state (List.replicate 20 (-32768))).prev_sample = -32768
    ∧ (detect_all score init_state (List.replicate 20 (-32768))).blink_count = 0
    ∧ (detect_events score
        (detect_all score init_state (List.replicate 20 (-32768))) 32767).blink_count = 0
    ∧ is_int16 32767 ∧ is_int16 (-32768)
    ∧ 20 < (32767 - (-32768) : Int).natAbs
    ∧ to_int16 (32767 - (-32768)) = -1 := by
  have h := detect_all_same score (fun _ _ => 0) (List.replicate 20 (-32768))
    init_state init_state (same_detector_refl _)
  have h2 := detect_events_same score (fun _ _ => 0) _ _ 32767 h
  refine ⟨h.2.1.trans (by decide!), h.1.trans (by decide!), h.2.2.trans (by decide!),
    h2.2.2.trans (by decide!), by decide, by decide, by decide, by decide⟩

/-- C5 (the code at the failing input). On a fresh system 20 calls with the
sample 0 arm the detector; the call with 100 increments `blink_count` to 1; the
next 19 calls leave it at 1; the 20th call after the blink, with 200,
increments it to 2. -/
theorem blink_on_twentieth_call_after_blink (score : List Int → Nat → Nat) :
    blink_trace score init_state
        (List.replicate 20 0 ++ [100] ++ (List.replicate 19 100 ++ [200]))
      = List.replicate 20 0 ++ [1] ++ (List.replicate 19 1 ++ [2])
    ∧ (List.replicate 19 (100 : Int) ++ [200]).length = 20 := by
  refine ⟨?_, by decide⟩
  rw [blink_trace_same score (fun _ _ => 0) _ init_state init_state (same_detector_refl _)]
  decide!

/-- After a call that fires, the next 19 calls leave `blink_count` unchanged,
whatever samples they receive, and the detector is Armed after them. -/
theorem no_blink_in_next_19_calls (score : List Int → Nat → Nat) (s : AdcState) (x : Int)
    (xs : List Int) (hf : fires s x) (hlen : xs.length ≤ 19) :
    (detect_all score (detect_events score s x) xs).blink_count
      = (detect_events score s x).blink_count
    ∧ (detect_all score (detect_events score s x) xs).refractory = 19 - xs.length := by
  have hr : (detect_events score s x).refractory = 19 := by
    rw [detect_events_refractory, if_pos hf]
  have h := blocked_while_refractory score xs (detect_events score s x) (by rw [hr]; exact hlen)
  rw [hr] at h
  exact h

/-- The call of `reset_adc_state` that opens the test leaves a fresh system as
it is. -/
theorem reset_init_state : reset_adc_state init_state = init_state := rfl

theorem test_count_after_eq (score : List Int → Nat → Nat) (k : Nat) :
    test_count_after score k = test_count_after (fun _ _ => 0) k :=
  (detect_all_same score (fun _ _ => 0) (blink_test_samples.take k)
    init_state init_state (same_detector_refl _)).2.2

/-- C6 (the code on the test's sequence). Running `detect_events` from the
freshly initialised state on the sequence of `test_blink_detection_increments`
gives `blink_count` = 0 after the 20 flat samples, 1 after 1030, still 1 after
the five samples of 1020, still 1 after 1090 (the test asserts 2: this is the
16th call after the blink and the refractory counter is still 4), and 2 after
the final 1030 (the test asserts 3). -/
theorem test_sequence_counts (score : List Int → Nat → Nat) :
    test_count_after score 20 = 0
    ∧ test_count_after score 21 = 1
    ∧ test_count_after score 26 = 1
    ∧ (detect_all score init_state (blink_test_samples.take 36)).refractory = 4
    ∧ test_count_after score 37 = 1
    ∧ test_count_after score 48 = 2
    ∧ blink_trace score init_state blink_test_samples
        = List.replicate 20 0 ++ List.replicate 27 1 ++ [2]
    ∧ blink_test_samples.length = 48
    ∧ blink_test_samples[36]? = some 1090 := by
  refine ⟨?_, ?_, ?_, ?_, ?_, ?_, ?_, by decide, by decide⟩
  · rw [test_count_after_eq]; decide!
  · rw [test_count_after_eq]; decide!
  · rw [test_count_after_eq]; decide!
  · exact (detect_all_same score (fun _ _ => 0) (blink_test_samples.take 36)
      init_state init_state (same_detector_refl _)).2.1.trans (by decide!)
  · rw [test_count_after_eq]; decide!
  · rw [test_count_after_eq]; decide!
  · rw [blink_trace_same score (fun _ _ => 0) _ init_state init_state (same_detector_refl _)]
    decide!

/-- C7 (counterexample). On a freshly started system the detector is not Armed
(`refractory = 20`), and the first call `detect_events(1000)`, with
|1000| > 20, leaves `blink_count` at 0 instead of making it 1. -/
theorem first_call_does_not_blink :
    (∀ score : List Int → Nat → Nat, (detect_events score init_state 1000).blink_count ≠ 1)
    ∧ is_int16 1000
    ∧ 20 < (1000 : Int).natAbs
    ∧ init_state.blink_count = 0
    ∧ init_state.refractory ≠ 0 := by
  refine ⟨?_, by decide, by decide, by decide, by decide⟩
  intro score
  rw [(detect_events_same score (fun _ _ => 0) init_state init_state 1000
    (same_detector_refl _)).2.2]
  decide

/-- C7 (amended). The blink detector's initial state is Refractory with a
countdown of 20 (`REFRACTORY_PERIOD_SAMPLES`) and previous = 0: on a freshly
started system the very first call `detect_events(v)` leaves `blink_count` at
0 for every `v`, also when |v| > 20, and leaves the countdown at 19. -/
theorem initial_state_is_refractory (score : List Int → Nat → Nat) (v : Int) :
    init_state.refractory = REFRACTORY_PERIOD_SAMPLES
    ∧ init_state.refractory = 20
    ∧ init_state.prev_sample = 0
    ∧ init_state.blink_count = 0
    ∧ (detect_events score init_state v).blink_count = 0
    ∧ (detect_events score init_state v).refractory = 19 := by
  have hnf : ¬ fires init_state v := by
    intro hf
    exact absurd hf.1 (by decide)
  refine ⟨rfl, rfl, rfl, rfl, ?_, ?_⟩
  · rw [detect_events_blink_count, if_neg hnf]; rfl
  · rw [detect_events_refractory, if_neg hnf]; rfl

/-- Calls of a quiet run never fire: `blink_count` is unchanged and the
refractory counter only counts down. -/
theorem quiet_calls (score : List Int → Nat → Nat) (xs : List Int) :
    ∀ s : AdcState, quiet s.prev_sample xs →
      (detect_all score s xs).blink_count = s.blink_count
      ∧ (detect_all score s xs).refractory = s.refractory - xs.length := by
  induction xs with
  | nil => intro s _; exact ⟨rfl, rfl⟩
  | cons x xs ih =>
    intro s hq
    obtain ⟨hx, hrest⟩ := hq
    have hnf : ¬ fires s x := by
      intro hf
      have h20 := hf.2
      unfold to_int16 at h20
      omega
    have hb : (detect_events score s x).blink_count = s.blink_count := by
      rw [detect_events_blink_count, if_neg hnf]
    have hr : (detect_events score s x).refractory = s.refractory - 1 := by
      rw [detect_events_refractory, if_neg hnf]
    have hp : (detect_events score s x).prev_sample = x := detect_events_prev_sample score s x
    obtain ⟨h1, h2⟩ := ih (detect_events score s x) (by rw [hp]; exact hrest)
    refine ⟨?_, ?_⟩
    · show (detect_all score (detect_events score s x) xs).blink_count = _
      rw [h1, hb]
    · show (detect_all score (detect_events score s x) xs).refractory = _
      rw [h2, hr, List.length_cons]
      omega

/-- After a call that fires and 20 further quiet calls the detector is Armed
again, and the next call whose difference exceeds 20 and fits `int16_t`
performs one `blink_count++`. -/
theorem rearmed_after_quiet_calls (score : List Int → Nat → Nat) (s : AdcState) (x : Int)
    (xs : List Int) (y : Int) (hf : fires s x) (hlen : xs.length = 20) (hq : quiet x xs)
    (hy : 20 < (y - (detect_all score (detect_events score s x) xs).prev_sample).natAbs)
    (hfit : is_int16 (y - (detect_all score (detect_events score s x) xs).prev_sample)) :
    (detect_all score (detect_events score s x) xs).refractory = 0
    ∧ (detect_all score (detect_events score s x) xs).blink_count
        = (detect_events score s x).blink_count
    ∧ (detect_events score (detect_all score (detect_events score s x) xs) y).blink_count
        = ((detect_events score s x).blink_count + 1) % UINT32_MOD := by
  have hr : (detect_events score s x).refractory = 19 := by
    rw [detect_events_refractory, if_pos hf]
  have hp : (detect_events score s x).prev_sample = x := detect_events_prev_sample score s x
  obtain ⟨h1, h2⟩ := quiet_calls score xs (detect_events score s x) (by rw [hp]; exact hq)
  have h0 : (detect_all score (detect_events score s x) xs).refractory = 0 := by
    rw [h2, hr, hlen]
  refine ⟨h0, h1, ?_⟩
  have hfire : fires (detect_all score (detect_events score s x) xs) y := by
    refine ⟨h0, ?_⟩
    rw [to_int16_of_is_int16 _ hfit]
    exact hy
  rw [detect_events_blink_count, if_pos hfire, h1]

/-- C8 (the code at the failing input). On a fresh system 20 calls with -32700
arm the detector; the call with -32768 increments `blink_count` to 1; 20 calls
with -32768 follow, each with difference 0, after which the detector is Armed
(`refractory = 0`) with `prev_sample = -32768`.  The next call receives 32767:
the true difference is 65535 > 20, but `blink_count` stays 1. -/
theorem armed_call_missed_when_difference_overflows (score : List Int → Nat → Nat) :
    blink_trace score init_state
        (List.replicate 20 (-32700) ++ [-32768] ++ List.replicate 20 (-32768) ++ [32767])
      = List.replicate 20 0 ++ [1] ++ List.replicate 20 1 ++ [1]
    ∧ (detect_all score init_state
        (List.replicate 20 (-32700) ++ [-32768] ++ List.replicate 20 (-32768))).refractory = 0
    ∧ (detect_all score init_state
        (List.replicate 20 (-32700) ++ [-32768] ++ List.replicate 20 (-32768))).prev_sample
        = -32768
    ∧ quiet (-32768) (List.replicate 20 (-32768))
    ∧ 20 < (32767 - (-32768) : Int).natAbs := by
  have h := detect_all_same score (fun _ _ => 0)
    (List.replicate 20 (-32700) ++ [-32768] ++ List.replicate 20 (-32768))
    init_state init_state (same_detector_refl _)
  refine ⟨?_, h.2.1.trans (by decide!), h.1.trans (by decide!), ?_, by decide⟩
  · rw [blink_trace_same score (fun _ _ => 0) _ init_state init_state (same_detector_refl _)]
    decide!
  · simp [quiet, List.replicate]

/-- C9. Blink detection depends only on the magnitude of the step: for every
detector state with previous value `p` and every `d` such that `p + d` and
`p - d` are both int16 values, `detect_events(p + d)` increments `blink_count`
if and only if `detect_events(p - d)` does when run from that same state; the
two calls leave the same `blink_count`, and each increments exactly when the
detector is Armed and `|d| > 20`. -/
theorem blink_depends_on_magnitude (score : List Int → Nat → Nat) (s : AdcState) (d : Int)
    (hplus : is_int16 (s.prev_sample + d)) (hminus : is_int16 (s.prev_sample - d)) :
    ((detect_events score s (s.prev_sample + d)).blink_count
        = (s.blink_count + 1) % UINT32_MOD
      ↔ (detect_events score s (s.prev_sample - d)).blink_count
        = (s.blink_count + 1) % UINT32_MOD)
    ∧ ((detect_events score s (s.prev_sample + d)).blink_count ≠ s.blink_count
      ↔ (detect_events score s (s.prev_sample - d)).blink_count ≠ s.blink_count)
    ∧ (detect_events score s (s.prev_sample + d)).blink_count
        = (detect_events score s (s.prev_sample - d)).blink_count
    ∧ ((detect_events score s (s.prev_sample + d)).blink_count ≠ s.blink_count
      ↔ s.refractory = 0 ∧ 20 < (d : Int).natAbs) := by
  have hd : to_int16 (s.prev_sample + d - s.prev_sample) = d := by
    unfold is_int16 at hplus hminus
    unfold to_int16
    omega
  have hiff : fires s (s.prev_sample + d) ↔ fires s (s.prev_sample - d) := by
    unfold fires to_int16
    constructor
    · rintro ⟨h0, h1⟩; exact ⟨h0, by omega⟩
    · rintro ⟨h0, h1⟩; exact ⟨h0, by omega⟩
  have heq : (detect_events score s (s.prev_sample + d)).blink_count
      = (detect_events score s (s.prev_sample - d)).blink_count := by
    rw [detect_events_blink_count, detect_events_blink_count]
    by_cases hf : fires s (s.prev_sample + d)
    · rw [if_pos hf, if_pos (hiff.mp hf)]
    · rw [if_neg hf, if_neg (fun h => hf (hiff.mpr h))]
  refine ⟨by rw [heq], by rw [heq], heq, ?_⟩
  have hfd : fires s (s.prev_sample + d) ↔ s.refractory = 0 ∧ 20 < d.natAbs := by
    unfold fires
    rw [hd]
  rw [detect_events_blink_count]
  by_cases hf : fires s (s.prev_sample + d)
  · rw [if_pos hf]
    exact ⟨fun _ => hfd.mp hf, fun _ => uint32_succ_ne _⟩
  · rw [if_neg hf]
    exact ⟨fun h => absurd rfl h, fun h => absurd (hfd.mpr h) hf⟩

/-- Witness for C9: Armed detector with previous value 1000 and `d = 30` (the
steps to 1030 and to 970). -/
theorem blink_depends_on_magnitude_witness :
    is_int16 (({ init_state with refractory := 0, prev_sample := 1000 } : AdcState).prev_sample + 30)
    ∧ is_int16 (({ init_state with refractory := 0, prev_sample := 1000 } : AdcState).prev_sample - 30)
    ∧ ((detect_events (fun _ _ => 0) ({ init_state with refractory := 0, prev_sample := 1000 } : AdcState) (({ init_state with refractory := 0, prev_sample := 1000 } : AdcState).prev_sample + 30)).blink_count
        = (({ init_state with refractory := 0, prev_sample := 1000 } : AdcState).blink_count + 1) % UINT32_MOD
      ↔ (detect_events (fun _ _ => 0) ({ init_state with refractory := 0, prev_sample := 1000 } : AdcState) (({ init_state with refractory := 0, prev_sample := 1000 } : AdcState).prev_sample - 30)).blink_count
        = (({ init_state with refractory := 0, prev_sample := 1000 } : AdcState).blink_count + 1) % UINT32_MOD)
    ∧ ((detect_events (fun _ _ => 0) ({ init_state with refractory := 0, prev_sample := 1000 } : AdcState) (({ init_state with refractory := 0, prev_sample := 1000 } : AdcState).prev_sample + 30)).blink_count ≠ ({ init_state with refractory := 0, prev_sample := 1000 } : AdcState).blink_count
      ↔ (detect_events (fun _ _ => 0) ({ init_state with refractory := 0, prev_sample := 1000 } : AdcState) (({ init_state with refractory := 0, prev_sample := 1000 } : AdcState).prev_sample - 30)).blink_count ≠ ({ init_state with refractory := 0, prev_sample := 1000 } : AdcState).blink_count)
    ∧ (detect_events (fun _ _ => 0) ({ init_state with refractory := 0, prev_sample := 1000 } : AdcState) (({ init_state with refractory := 0, prev_sample := 1000 } : AdcState).prev_sample + 30)).blink_count
        = (detect_events (fun _ _ => 0) ({ init_state with refractory := 0, prev_sample := 1000 } : AdcState) (({ init_state with refractory := 0, prev_sample := 1000 } : AdcState).prev_sample - 30)).blink_count
    ∧ ((detect_events (fun _ _ => 0) ({ init_state with refractory := 0, prev_sample := 1000 } : AdcState) (({ init_state with refractory := 0, prev_sample := 1000 } : AdcState).prev_sample + 30)).blink_count ≠ ({ init_state with refractory := 0, prev_sample := 1000 } : AdcState).blink_count
      ↔ ({ init_state with refractory := 0, prev_sample := 1000 } : AdcState).refractory = 0 ∧ 20 < (30 : Int).natAbs) :=
  ⟨by decide, by decide,
   blink_depends_on_magnitude (fun _ _ => 0)
     { init_state with refractory := 0, prev_sample := 1000 } 30 (by decide) (by decide)⟩

theorem flat_calls_keep_count (score : List Int → Nat → Nat) (c : Int) (n : Nat) :
    ∀ s : AdcState, s.prev_sample = c →
      (detect_all score s (List.replicate n c)).blink_count = s.blink_count := by
  induction n with
  | zero => intro s _; rfl
  | succ n ih =>
    intro s hp
    have hnf : ¬ fires s c := by
      intro hf
      have h20 := hf.2
      rw [hp, sub_self] at h20
      exact absurd h20 (by decide)
    show (detect_all score (detect_events score s c) (List.replicate n c)).blink_count = _
    rw [ih _ (detect_events_prev_sample score s c), detect_events_blink_count, if_neg hnf]

/-- C10. From the freshly initialised detector state, for every constant value
`c` (in particular every int16 value; the test uses `c = 1000`) and every
`n >= 0` (the test uses `n = 20`), `n` consecutive calls `detect_events(c)`
leave `blink_count` at 0. -/
theorem flat_signal_no_blink (score : List Int → Nat → Nat) (c : Int) (n : Nat) :
    (detect_all score init_state (List.replicate n c)).blink_count = 0 := by
  cases n with
  | zero => rfl
  | succ n =>
    have hnf : ¬ fires init_state c := by
      intro hf
      exact absurd hf.1 (by decide)
    show (detect_all score (detect_events score init_state c) (List.replicate n c)).blink_count = 0
    rw [flat_calls_keep_count score c n _ (detect_events_prev_sample score init_state c),
      detect_events_blink_count, if_neg hnf]
    rfl

/-! ## Attention window -/

theorem run_snoc (score : List Int → Nat → Nat) (s : AdcState) (es : List Event) (e : Event) :
    run score s (es ++ [e]) = step score (run score s es) e := by
  simp [run, List.foldl_append]

theorem detect_calls_snoc (es : List Event) (e : Event) :
    detect_calls (es ++ [e]) = detect_calls es + detect_calls [e] := by
  induction es with
  | nil => simp [detect_calls]
  | cons a es ih =>
    cases a with
    | push x => simpa [detect_calls] using ih
    | detect x => simp [detect_calls, ih]; omega

theorem detect_events_sample_counter (score : List Int → Nat → Nat) (s : AdcState) (x : Int) :
    (detect_events score s x).sample_counter
      = if 50 ≤ (s.sample_counter + 1) % UINT32_MOD then 0
        else (s.sample_counter + 1) % UINT32_MOD := by
  unfold detect_events
  by_cases h50 : 50 ≤ (s.sample_counter + 1) % UINT32_MOD
  · simp [h50]
  · simp [h50]

theorem detect_events_attention_level (score : List Int → Nat → Nat) (s : AdcState) (x : Int) :
    (detect_events score s x).attention_level
      = if 50 ≤ (s.sample_counter + 1) % UINT32_MOD then score s.adc_buffer BUFFER_SIZE
        else s.attention_level := by
  unfold detect_events
  by_cases h50 : 50 ≤ (s.sample_counter + 1) % UINT32_MOD
  · simp [h50]
  · simp [h50]

/-- The window counter after any run from the initial state is the number of
calls to `detect_events` so far, modulo 50. -/
theorem run_sample_counter (score : List Int → Nat → Nat) (events : List Event) :
    (run score init_state events).sample_counter = detect_calls events % 50 := by
  induction events using List.reverseRecOn with
  | nil => rfl
  | append_singleton es e ih =>
    rw [run_snoc, detect_calls_snoc]
    cases e with
    | push x =>
      show (adc_push_sample (run score init_state es) x).sample_counter = _
      simp only [adc_push_sample, detect_calls, ih]
      omega
    | detect x =>
      show (detect_events score (run score init_state es) x).sample_counter = _
      rw [detect_events_sample_counter, ih]
      simp only [detect_calls, UINT32_MOD]
      split <;> omega

/-- C19. Starting from the initial state, whatever pushes and calls came
before, the call number `k + 1` of `detect_events` writes `attention_level`
exactly when `k + 1` is a multiple of 50 (calls 50, 100, 150, ...): it then
stores `compute_alpha_score(adc_buffer, 256)` of the whole buffer in storage
order and the window counter is back to 0; on every other call
`attention_level` is left unchanged and the counter is `(k + 1) mod 50`. -/
theorem attention_written_every_50th_call (score : List Int → Nat → Nat)
    (events : List Event) (x : Int) :
    (run score init_state events).sample_counter = detect_calls events % 50
    ∧ ((detect_calls events + 1) % 50 = 0 →
        (detect_events score (run score init_state events) x).attention_level
          = score (run score init_state events).adc_buffer 256
        ∧ (detect_events score (run score init_state events) x).sample_counter = 0)
    ∧ ((detect_calls events + 1) % 50 ≠ 0 →
        (detect_events score (run score init_state events) x).attention_level
          = (run score init_state events).attention_level
        ∧ (detect_events score (run score init_state events) x).sample_counter
          = (detect_calls events + 1) % 50)
    ∧ (detect_events score (run score init_state events) x).adc_buffer
        = (run score init_state events).adc_buffer := by
  have hc := run_sample_counter score events
  refine ⟨hc, ?_, ?_, ?_⟩
  · intro h
    have h50 : 50 ≤ ((run score init_state events).sample_counter + 1) % UINT32_MOD := by
      rw [hc]; simp only [UINT32_MOD]; omega
    rw [detect_events_attention_level, detect_events_sample_counter, if_pos h50, if_pos h50]
    exact ⟨rfl, rfl⟩
  · intro h
    have h50 : ¬ 50 ≤ ((run score init_state events).sample_counter + 1) % UINT32_MOD := by
      rw [hc]; simp only [UINT32_MOD]; omega
    rw [detect_events_attention_level, detect_events_sample_counter, if_neg h50, if_neg h50]
    refine ⟨rfl, ?_⟩
    rw [hc]; simp only [UINT32_MOD]; omega
  · unfold detect_events
    by_cases h50 : 50 ≤ ((run score init_state events).sample_counter + 1) % UINT32_MOD
    · simp [h50]
    · simp [h50]

/-! ## Reset -/

/-- C20. From every state, `reset_adc_state` yields a state in which all 256
slots of `adc_buffer` are 0, `buffer_index` is 0, `blink_count` is 0,
`attention_level` is 0 and both filter history arrays `bp_x` and `bp_y` are
zero; calling it a second time changes nothing. -/
theorem reset_adc_state_zeroes {F : Type} [LinearOrderedField F] (s : SystemState F) :
    s.reset_adc_state.adc.adc_buffer.length = 256
    ∧ (∀ i, i < 256 → s.reset_adc_state.adc.adc_buffer[i]? = some 0)
    ∧ s.reset_adc_state.adc.buffer_index = 0
    ∧ s.reset_adc_state.adc.blink_count = 0
    ∧ s.reset_adc_state.adc.attention_level = 0
    ∧ s.reset_adc_state.filter.bp_x0 = 0 ∧ s.reset_adc_state.filter.bp_x1 = 0
    ∧ s.reset_adc_state.filter.bp_y0 = 0 ∧ s.reset_adc_state.filter.bp_y1 = 0
    ∧ s.reset_adc_state.reset_adc_state = s.reset_adc_state := by
  refine ⟨reset_buffer_length s.adc, ?_, rfl, rfl, rfl, rfl, rfl, rfl, rfl, rfl⟩
  intro i hi
  show (List.replicate BUFFER_SIZE (0 : Int))[i]? = some 0
  rw [List.getElem?_replicate]
  simp [BUFFER_SIZE, hi]

/-! ## Bandpass filter -/

theorem trunc_toward_zero_of_nonneg {F : Type} [LinearOrderedField F] [FloorRing F] (y : F)
    (h : 0 ≤ y) : trunc_toward_zero y = ⌊y⌋ := by
  unfold trunc_toward_zero
  rw [if_pos h]

theorem trunc_toward_zero_of_neg {F : Type} [LinearOrderedField F] [FloorRing F] (y : F)
    (h : y < 0) : trunc_toward_zero y = ⌈y⌉ := by
  unfold trunc_toward_zero
  rw [if_neg (not_le.mpr h)]

/-- The value of `trunc_toward_zero` lies between 0 and `y` and differs from `y`
by less than 1. -/
theorem trunc_toward_zero_spec {F : Type} [LinearOrderedField F] [FloorRing F] (y : F) :
    (0 ≤ y → 0 ≤ trunc_toward_zero y ∧ (trunc_toward_zero y : F) ≤ y
        ∧ y < (trunc_toward_zero y : F) + 1)
    ∧ (y < 0 → trunc_toward_zero y ≤ 0 ∧ y ≤ (trunc_toward_zero y : F)
        ∧ (trunc_toward_zero y : F) - 1 < y) := by
  constructor
  · intro h
    rw [trunc_toward_zero_of_nonneg y h]
    exact ⟨Int.floor_nonneg.mpr h, Int.floor_le y, Int.lt_floor_add_one y⟩
  · intro h
    rw [trunc_toward_zero_of_neg y h]
    refine ⟨Int.ceil_le.mpr (by simpa using h.le), Int.le_ceil y, ?_⟩
    have := Int.ceil_lt_add_one y
    linarith

/-- C11 (counterexample). With the history `bp_y[0] = 1000000` (all else 0) and
the input 0 the filter computes `y = 216200`; its truncation, 216200, is not an
`int16_t` value, so the function does not return `y` truncated toward zero: the
conversion `(int16_t)y` is undefined. -/
theorem bandpass_return_not_truncation :
    bandpass_output ({ bp_x0 := 0, bp_x1 := 0, bp_y0 := 1000000, bp_y1 := 0 } : FilterState ℚ) 0 = 216200
    ∧ trunc_toward_zero (bandpass_output ({ bp_x0 := 0, bp_x1 := 0, bp_y0 := 1000000, bp_y1 := 0 } : FilterState ℚ) 0) = 216200
    ∧ ¬ is_int16 216200
    ∧ (apply_bandpass_iir ({ bp_x0 := 0, bp_x1 := 0, bp_y0 := 1000000, bp_y1 := 0 } : FilterState ℚ) 0).2
        ≠ some (trunc_toward_zero (bandpass_output ({ bp_x0 := 0, bp_x1 := 0, bp_y0 := 1000000, bp_y1 := 0 } : FilterState ℚ) 0)) := by
  have hy : bandpass_output ({ bp_x0 := 0, bp_x1 := 0, bp_y0 := 1000000, bp_y1 := 0 } : FilterState ℚ) 0 = 216200 := by
    simp only [bandpass_output, bp_b0, bp_b1, bp_b2, bp_a1, bp_a2]
    norm_num
  have ht : trunc_toward_zero (bandpass_output ({ bp_x0 := 0, bp_x1 := 0, bp_y0 := 1000000, bp_y1 := 0 } : FilterState ℚ) 0) = 216200 := by
    rw [hy, trunc_toward_zero_of_nonneg _ (by norm_num)]
    norm_num
  refine ⟨hy, ht, by decide, ?_⟩
  simp only [apply_bandpass_iir, float_to_int16, ht]
  rw [if_neg (by decide)]
  simp

/-- C11 (amended). For every filter history `(x1, x2, y1, y2)` and every input
`x`, `apply_bandpass_iir` computes
`y = b0*x + b1*x1 + b2*x2 - a1*y1 - a2*y2` with `b = [0.3913, 0, -0.3913]` and
`a = [1, -0.2162, 0.2174]`, leaves the input history as `(x, x1)` and the
output history as `(y, y1)` with the stored `y` untruncated, and returns `y`
truncated toward zero when that value is an `int16_t` value; when it is not,
the conversion is undefined and nothing is returned. -/
theorem apply_bandpass_iir_spec {F : Type} [LinearOrderedField F] [FloorRing F]
    (st : FilterState F) (input : Int) :
    bandpass_output st input
        = 3913 / 10000 * (input : F) + 0 * st.bp_x0 + -(3913 / 10000) * st.bp_x1
          - -(2162 / 10000) * st.bp_y0 - 2174 / 10000 * st.bp_y1
    ∧ (apply_bandpass_iir st input).1.bp_x0 = (input : F)
    ∧ (apply_bandpass_iir st input).1.bp_x1 = st.bp_x0
    ∧ (apply_bandpass_iir st input).1.bp_y0 = bandpass_output st input
    ∧ (apply_bandpass_iir st input).1.bp_y1 = st.bp_y0
    ∧ (is_int16 (trunc_toward_zero (bandpass_output st input)) →
        (apply_bandpass_iir st input).2
          = some (trunc_toward_zero (bandpass_output st input)))
    ∧ (¬ is_int16 (trunc_toward_zero (bandpass_output st input)) →
        (apply_bandpass_iir st input).2 = none) := by
  refine ⟨rfl, rfl, rfl, rfl, rfl, ?_, ?_⟩
  · intro h
    simp only [apply_bandpass_iir, float_to_int16]
    rw [if_pos h]
  · intro h
    simp only [apply_bandpass_iir, float_to_int16]
    rw [if_neg h]

theorem filter_run_output (F : Type) [LinearOrderedField F] [FloorRing F] (inputs : List Int) :
    ∀ (st : FilterState F) (k : Nat), k < inputs.length →
      (filter_run st inputs).2[k]?
        = some (float_to_int16 (filter_run st (inputs.take (k + 1))).1.bp_y0) := by
  induction inputs with
  | nil => intro st k hk; simp at hk
  | cons x xs ih =>
    intro st k hk
    cases k with
    | zero => simp [filter_run, apply_bandpass_iir]
    | succ k =>
      simp only [List.length_cons] at hk
      have h := ih (apply_bandpass_iir st x).1 k (by omega)
      simpa [filter_run] using h

/-- C15 (counterexample). From the reset filter state the int16 inputs
-32768, -32768, 32767, 32767 give `y = 34451.98...` on the fourth call: the
value is not limited to the int16 range, its truncation 34451 is not an
`int16_t` value, and the conversion `(int16_t)y` overflows (it is undefined).
The first three calls return -12822, -15594 and 25059. -/
theorem filter_overflows_without_saturation :
    (filter_run (reset_filter_state ({ bp_x0 := 0, bp_x1 := 0, bp_y0 := 0, bp_y1 := 0 } : FilterState ℚ)) [-32768, -32768, 32767, 32767]).2 = [some (-12822), some (-15594), some 25059, none]
    ∧ (filter_run (reset_filter_state ({ bp_x0 := 0, bp_x1 := 0, bp_y0 := 0, bp_y1 := 0 } : FilterState ℚ)) [-32768, -32768, 32767, 32767]).1.bp_y0 = 672890371035616279 / 19531250000000
    ∧ (32767 : ℚ) < (filter_run (reset_filter_state ({ bp_x0 := 0, bp_x1 := 0, bp_y0 := 0, bp_y1 := 0 } : FilterState ℚ)) [-32768, -32768, 32767, 32767]).1.bp_y0
    ∧ trunc_toward_zero (filter_run (reset_filter_state ({ bp_x0 := 0, bp_x1 := 0, bp_y0 := 0, bp_y1 := 0 } : FilterState ℚ)) [-32768, -32768, 32767, 32767]).1.bp_y0 = 34451
    ∧ (∀ x ∈ ([-32768, -32768, 32767, 32767] : List Int), is_int16 x) := by
  have hy : (filter_run (reset_filter_state ({ bp_x0 := 0, bp_x1 := 0, bp_y0 := 0, bp_y1 := 0 } : FilterState ℚ)) [-32768, -32768, 32767, 32767]).1.bp_y0 = 672890371035616279 / 19531250000000 := by
    simp only [filter_run, apply_bandpass_iir, bandpass_output, reset_filter_state,
      bp_b0, bp_b1, bp_b2, bp_a1, bp_a2]
    norm_num
  refine ⟨by decide!, hy, ?_, ?_, by decide⟩
  · rw [hy]; norm_num
  · rw [hy, trunc_toward_zero_of_nonneg _ (by norm_num), Int.floor_eq_iff]
    constructor <;> norm_num

/-- C15 (amended). The filter applies no limiting: for every sequence of inputs
fed to `apply_bandpass_iir` from the reset state, the value returned by call
`k` is the conversion `(int16_t)y` of the `y` computed in that call, which is
`y` truncated toward zero when that value lies in `[-32768, 32767]` and is
undefined (an overflow, nothing is returned) when it does not. -/
theorem filter_returns_unchecked_conversion {F : Type} [LinearOrderedField F] [FloorRing F]
    (st0 : FilterState F) (inputs : List Int) (k : Nat) :
    (inputs.length > k →
      (filter_run (reset_filter_state st0) inputs).2[k]?
        = some (float_to_int16 (filter_run (reset_filter_state st0) (inputs.take (k + 1))).1.bp_y0))
    ∧ (is_int16 (trunc_toward_zero (filter_run (reset_filter_state st0) (inputs.take (k + 1))).1.bp_y0) →
        float_to_int16 (filter_run (reset_filter_state st0) (inputs.take (k + 1))).1.bp_y0
          = some (trunc_toward_zero (filter_run (reset_filter_state st0) (inputs.take (k + 1))).1.bp_y0))
    ∧ (¬ is_int16 (trunc_toward_zero (filter_run (reset_filter_state st0) (inputs.take (k + 1))).1.bp_y0) →
        float_to_int16 (filter_run (reset_filter_state st0) (inputs.take (k + 1))).1.bp_y0 = none) := by
  refine ⟨fun hk => filter_run_output F inputs (reset_filter_state st0) k hk, ?_, ?_⟩
  · intro h
    unfold float_to_int16
    rw [if_pos h]
  · intro h
    unfold float_to_int16
    rw [if_neg h]

/-! ## Alpha estimator -/

/-- The power is a sum of two squares with non-negative weights when
`|coeff| <= 2`, hence non-negative. -/
theorem alpha_power_nonneg {F : Type} [LinearOrderedField F] (coeff : F) (hc : |coeff| ≤ 2)
    (window : List Int) : 0 ≤ alpha_power coeff window := by
  have h := abs_le.mp hc
  unfold alpha_power
  generalize (goertzel_state coeff window).1 = q1
  generalize (goertzel_state coeff window).2 = q2
  have hid : q1 * q1 + q2 * q2 - q1 * q2 * coeff
      = (2 + coeff) / 4 * (q1 - q2) ^ 2 + (2 - coeff) / 4 * (q1 + q2) ^ 2 := by ring
  rw [hid]
  have h1 : 0 ≤ (2 + coeff) / 4 := by linarith [h.1]
  have h2 : 0 ≤ (2 - coeff) / 4 := by linarith [h.2]
  exact add_nonneg (mul_nonneg h1 (sq_nonneg _)) (mul_nonneg h2 (sq_nonneg _))

/-- A clamped non-negative value converts to a `uint8_t` of at most 100. -/
theorem float_to_uint8_clamped {F : Type} [LinearOrderedField F] [FloorRing F] (p : F)
    (hp : 0 ≤ p) : ∃ v, float_to_uint8 (min 100 (p * (1 / 100000))) = some v ∧ v ≤ 100 := by
  have h0 : (0 : F) ≤ min 100 (p * (1 / 100000)) :=
    le_min (by norm_num) (mul_nonneg hp (by norm_num))
  have h100 : min 100 (p * (1 / 100000)) ≤ (100 : F) := min_le_left _ _
  have hfloor0 : 0 ≤ ⌊min 100 (p * (1 / 100000))⌋ := Int.floor_nonneg.mpr h0
  have hfloor100 : ⌊min 100 (p * (1 / 100000))⌋ ≤ 100 := by
    have : ⌊min 100 (p * (1 / 100000))⌋ < 101 := by
      rw [Int.floor_lt]
      have : (100 : F) < ((101 : Int) : F) := by norm_num
      exact lt_of_le_of_lt h100 this
    omega
  refine ⟨⌊min 100 (p * (1 / 100000))⌋.toNat, ?_, by omega⟩
  unfold float_to_uint8
  rw [trunc_toward_zero_of_nonneg _ h0, if_pos ⟨hfloor0, by omega⟩]

theorem compute_alpha_score_range {F : Type} [LinearOrderedField F] [FloorRing F] (coeff : F)
    (hc : |coeff| ≤ 2) (window : List Int) (len : Nat) :
    ∃ v, compute_alpha_score coeff window len = some v ∧ v ≤ 100 :=
  float_to_uint8_clamped _ (alpha_power_nonneg coeff hc _)

theorem alpha_score_value_le {F : Type} [LinearOrderedField F] [FloorRing F] (coeff : F)
    (hc : |coeff| ≤ 2) (window : List Int) (len : Nat) :
    alpha_score_value coeff window len ≤ 100 := by
  obtain ⟨v, hv, hle⟩ := compute_alpha_score_range coeff hc window len
  unfold alpha_score_value
  rw [hv]
  exact hle

theorem goertzel_state_zeros {F : Type} [LinearOrderedField F] (coeff : F) (n : Nat) :
    goertzel_state coeff (List.replicate n 0) = (0, 0) := by
  unfold goertzel_state
  induction n with
  | zero => rfl
  | succ n ih =>
    rw [List.replicate_succ, List.foldl_cons]
    have h0 : goertzel_step coeff ((0 : F), (0 : F)) 0 = (0, 0) := by
      simp [goertzel_step]
    rw [h0, ih]

theorem compute_alpha_score_zeros {F : Type} [LinearOrderedField F] [FloorRing F] (coeff : F)
    (n len : Nat) : compute_alpha_score coeff (List.replicate n 0) len = some 0 := by
  unfold compute_alpha_score alpha_power
  rw [List.take_replicate, goertzel_state_zeros]
  simp [float_to_uint8, trunc_toward_zero]

/-- Every score stored by `detect_events` is at most 100 when the score function
is. -/
theorem run_attention_le (score : List Int → Nat → Nat) (hs : ∀ w n, score w n ≤ 100)
    (events : List Event) : (run score init_state events).attention_level ≤ 100 := by
  induction events using List.reverseRecOn with
  | nil => show (0 : Nat) ≤ 100; omega
  | append_singleton es e ih =>
    rw [run_snoc]
    cases e with
    | push x => exact ih
    | detect x =>
      show (detect_events score (run score init_state es) x).attention_level ≤ 100
      rw [detect_events_attention_level]
      split
      · exact hs _ _
      · exact ih

/-- C16. For every window of samples of every length (including the empty and
the all-zero window, which score 0), `compute_alpha_score` returns an integer
in `[0, 100]`; consequently `attention_level` is in `[0, 100]` in every state
reachable from the initial state through pushes and calls to `detect_events`.
The coefficient `coeff = 2 cos(...)` enters through `|coeff| <= 2`. -/
theorem alpha_score_in_range {F : Type} [LinearOrderedField F] [FloorRing F] (coeff : F)
    (hc : |coeff| ≤ 2) (window : List Int) (len n : Nat) (events : List Event) :
    (∃ v, compute_alpha_score coeff window len = some v ∧ v ≤ 100)
    ∧ compute_alpha_score coeff [] len = some 0
    ∧ compute_alpha_score coeff (List.replicate n 0) len = some 0
    ∧ alpha_score_value coeff window len ≤ 100
    ∧ (run (alpha_score_value coeff) init_state events).attention_level ≤ 100 := by
  refine ⟨compute_alpha_score_range coeff hc window len, ?_, compute_alpha_score_zeros coeff n len,
    alpha_score_value_le coeff hc window len,
    run_attention_le _ (alpha_score_value_le coeff hc) events⟩
  have := compute_alpha_score_zeros coeff 0 len
  simpa using this

/-- Witness for C16: the coefficient 1.618, the window 1000, 0, -1000 and a run
of one push and one call. -/
theorem alpha_score_in_range_witness :
    |(1618 / 1000 : ℚ)| ≤ 2
    ∧ (∃ v, compute_alpha_score (1618 / 1000 : ℚ) [1000, 0, -1000] 3 = some v ∧ v ≤ 100)
      ∧ compute_alpha_score (1618 / 1000 : ℚ) [] 3 = some 0
      ∧ compute_alpha_score (1618 / 1000 : ℚ) (List.replicate 4 0) 3 = some 0
      ∧ alpha_score_value (1618 / 1000 : ℚ) [1000, 0, -1000] 3 ≤ 100
      ∧ (run (alpha_score_value (1618 / 1000 : ℚ)) init_state [Event.push 7, Event.detect 5]).attention_level ≤ 100 :=
  ⟨by rw [abs_le]; constructor <;> norm_num,
   alpha_score_in_range (1618 / 1000 : ℚ) (by rw [abs_le]; constructor <;> norm_num)
     [1000, 0, -1000] 3 4 [Event.push 7, Event.detect 5]⟩

/-! ## Goertzel recurrence and the DFT bin -/

theorem goertzel_state_snoc {F : Type} [LinearOrderedField F] (coeff : F) (xs : List Int)
    (x : Int) :
    goertzel_state coeff (xs ++ [x]) = goertzel_step coeff (goertzel_state coeff xs) x := by
  simp [goertzel_state, List.foldl_append]

theorem horner_snoc (w : ℂ) (xs : List Int) (x : Int) :
    horner w (xs ++ [x]) = w * horner w xs + (x : ℂ) := by
  simp [horner, List.foldl_append]

theorem goertzel_horner (c : ℝ) (w z : ℂ) (hwz : w * z = 1) (hc : w + z = (c : ℂ))
    (xs : List Int) :
    (((goertzel_state c xs).1 : ℝ) : ℂ) - z * (((goertzel_state c xs).2 : ℝ) : ℂ)
      = horner w xs := by
  induction xs using List.reverseRecOn with
  | nil => simp [goertzel_state, horner]
  | append_singleton xs x ih =>
    rw [goertzel_state_snoc, horner_snoc, ← ih]
    simp only [goertzel_step]
    push_cast
    rw [← hc]
    linear_combination ((((goertzel_state c xs).2 : ℝ) : ℂ)) * hwz

theorem horner_sum (w z : ℂ) (hwz : w * z = 1) (xs : List Int) :
    w * horner w xs
      = w ^ xs.length * ∑ n in Finset.range xs.length, ((xs.getD n 0 : Int) : ℂ) * z ^ n := by
  induction xs using List.reverseRecOn with
  | nil => simp [horner]
  | append_singleton xs x ih =>
    rw [horner_snoc, List.length_append, List.length_singleton, Finset.sum_range_succ]
    have hsum : ∑ n in Finset.range xs.length, (((xs ++ [x]).getD n 0 : Int) : ℂ) * z ^ n
        = ∑ n in Finset.range xs.length, ((xs.getD n 0 : Int) : ℂ) * z ^ n := by
      apply Finset.sum_congr rfl
      intro n hn
      rw [Finset.mem_range] at hn
      rw [List.getD_append _ _ _ _ hn]
    have hlast : (xs ++ [x]).getD xs.length 0 = x := by
      rw [List.getD_append_right _ _ _ _ (le_refl _)]
      simp
    rw [hsum, hlast]
    have hp : w ^ xs.length * z ^ xs.length = 1 := by
      rw [← mul_pow, hwz, one_pow]
    linear_combination w * ih - (w * (x : ℂ)) * hp

theorem normSq_sub_mul (a b : ℝ) (z : ℂ) (hz : Complex.normSq z = 1) :
    Complex.normSq ((a : ℂ) - z * (b : ℂ)) = a * a + b * b - a * b * (2 * z.re) := by
  rw [Complex.normSq_apply] at hz ⊢
  simp only [Complex.sub_re, Complex.sub_im, Complex.mul_re, Complex.mul_im, Complex.ofReal_re,
    Complex.ofReal_im]
  nlinarith [hz]

theorem goertzel_power_general (c : ℝ) (w z : ℂ) (hwz : w * z = 1) (hc : w + z = (c : ℂ))
    (hz : Complex.normSq z = 1) (hre : 2 * z.re = c) (xs : List Int) :
    alpha_power c xs
      = Complex.normSq (∑ n in Finset.range xs.length, ((xs.getD n 0 : Int) : ℂ) * z ^ n) := by
  have hw : Complex.normSq w = 1 := by
    have := congrArg Complex.normSq hwz
    rw [Complex.normSq_mul, hz, mul_one, Complex.normSq_one] at this
    exact this
  have h1 := normSq_sub_mul (goertzel_state c xs).1 (goertzel_state c xs).2 z hz
  rw [goertzel_horner c w z hwz hc xs, hre] at h1
  have h2 := congrArg Complex.normSq (horner_sum w z hwz xs)
  rw [Complex.normSq_mul, Complex.normSq_mul, map_pow, hw, one_pow, one_mul,
    one_mul] at h2
  unfold alpha_power
  rw [← h1, h2]

/-- C17. In exact real arithmetic, for every window `x[0..len-1]`, the power
`compute_alpha_score` forms before scaling, `q1^2 + q2^2 - q1*q2*coeff` with
`coeff = 2*cos(2*pi*10/100)` and `(q1, q2)` the final state of the recurrence
`q0 = coeff*q1 - q2 + x[i]`, equals the squared modulus of the single DFT bin
`|sum over n of x[n]*exp(-i*2*pi*10*n/100)|^2`. -/
theorem goertzel_power_eq_dft_bin (window : List Int) :
    alpha_power (2 * Real.cos (2 * Real.pi * 10 / 100)) window
        = (goertzel_state (2 * Real.cos (2 * Real.pi * 10 / 100)) window).1 ^ 2
          + (goertzel_state (2 * Real.cos (2 * Real.pi * 10 / 100)) window).2 ^ 2
          - (goertzel_state (2 * Real.cos (2 * Real.pi * 10 / 100)) window).1
            * (goertzel_state (2 * Real.cos (2 * Real.pi * 10 / 100)) window).2
            * (2 * Real.cos (2 * Real.pi * 10 / 100))
    ∧ alpha_power (2 * Real.cos (2 * Real.pi * 10 / 100)) window
      = Complex.normSq (∑ n in Finset.range window.length,
          ((window.getD n 0 : Int) : ℂ)
            * Complex.exp (-(Complex.I * (2 * Real.pi * 10 * n / 100)))) := by
  refine ⟨by unfold alpha_power; ring, ?_⟩
  have hpow : ∀ n : ℕ, Complex.exp (-(Complex.I * (2 * Real.pi * 10 * n / 100)))
      = Complex.exp (-(((2 * Real.pi * 10 / 100 : ℝ) : ℂ) * Complex.I)) ^ n := by
    intro n
    rw [← Complex.exp_nat_mul]
    congr 1
    push_cast
    ring
  simp only [hpow]
  apply goertzel_power_general _ (Complex.exp ((((2 * Real.pi * 10 / 100 : ℝ) : ℂ)) * Complex.I))
  · rw [← Complex.exp_add]; simp
  · rw [Complex.exp_mul_I, ← neg_mul, Complex.exp_mul_I]
    simp only [Complex.cos_neg, Complex.sin_neg]
    push_cast
    ring
  · rw [← neg_mul, Complex.normSq_eq_abs, ← Complex.ofReal_neg, Complex.abs_exp_ofReal_mul_I]
    norm_num
  · rw [← neg_mul, ← Complex.ofReal_neg, Complex.exp_ofReal_mul_I_re, Real.cos_neg]

/-! ## Reset and the detector statics -/

theorem initial_state_is_refractory_aux (score : List Int → Nat → Nat) (v : Int) :
    (detect_events score init_state v).blink_count = 0 := by
  have hnf : ¬ fires init_state v := by
    intro hf
    exact absurd hf.1 (by decide)
  rw [detect_events_blink_count, if_neg hnf]
  rfl

theorem reset_adc_state_adc {F : Type} [LinearOrderedField F] (s : SystemState F) :
    s.reset_adc_state.adc = reset_adc_state s.adc := rfl

theorem reset_adc_state_same (s t : AdcState) (h : same_detector s t) :
    same_detector (reset_adc_state s) (reset_adc_state t) := by
  obtain ⟨h1, h2, _⟩ := h
  exact ⟨h1, h2, rfl⟩

theorem used_then_reset_adc (score : List Int → Nat → Nat) :
    (used_then_reset score).adc
      = reset_adc_state (detect_all score init_state (List.replicate 20 0)) := by
  simp only [used_then_reset, SystemState.reset_adc_state]

/-- C21 (counterexample). On a fresh system 20 calls `detect_events(0)` are made
and then `reset_adc_state`: the state is not the freshly initialised one (the
refractory countdown is 0, not 20), and the next call `detect_events(100)`
makes `blink_count` 1, whereas on a fresh system the same call leaves it 0. -/
theorem reset_keeps_detector_statics :
    (∀ score : List Int → Nat → Nat,
      (used_then_reset score).adc ≠ init_state
      ∧ (used_then_reset score).adc.refractory = 0
      ∧ (detect_events score (used_then_reset score).adc 100).blink_count = 1
      ∧ (detect_events score init_state 100).blink_count = 0)
    ∧ is_int16 100 := by
  refine ⟨?_, by decide⟩
  intro score
  have hsame : same_detector (used_then_reset score).adc
      (reset_adc_state (detect_all (fun _ _ => 0) init_state (List.replicate 20 0))) := by
    have h0 := detect_all_same score (fun _ _ => 0) (List.replicate 20 0)
      init_state init_state (same_detector_refl _)
    have h1 := reset_adc_state_same _ _ h0
    rw [used_then_reset_adc]
    exact h1
  have hr : (used_then_reset score).adc.refractory = 0 := hsame.2.1.trans (by decide!)
  refine ⟨?_, hr, ?_, ?_⟩
  · intro h
    have h2 := congrArg AdcState.refractory h
    rw [hr] at h2
    exact absurd h2 (by decide)
  · exact (detect_events_same score (fun _ _ => 0) _ _ 100 hsame).2.2.trans (by decide!)
  · exact (initial_state_is_refractory_aux score 100)

/-- C21 (amended). After `reset_adc_state`, from every state, the buffer, the
cursor, `blink_count`, `attention_level` and the filter history are those of the
freshly initialised state, while the detector's previous sample, refractory
countdown and window counter keep the values they had; the whole state, and with
it the result of every subsequent sequence of `detect_events` calls, is that of
a fresh system when these three have their initial values 0, 20 and 0. -/
theorem reset_restores_all_but_detector_statics {F : Type} [LinearOrderedField F]
    (s : SystemState F) (score : List Int → Nat → Nat) (xs : List Int) :
    s.reset_adc_state.adc
        = { init_state with
            prev_sample := s.adc.prev_sample
            refractory := s.adc.refractory
            sample_counter := s.adc.sample_counter }
    ∧ s.reset_adc_state.filter.bp_x0 = (init_system_state : SystemState F).filter.bp_x0
    ∧ s.reset_adc_state.filter.bp_x1 = (init_system_state : SystemState F).filter.bp_x1
    ∧ s.reset_adc_state.filter.bp_y0 = (init_system_state : SystemState F).filter.bp_y0
    ∧ s.reset_adc_state.filter.bp_y1 = (init_system_state : SystemState F).filter.bp_y1
    ∧ (s.adc.prev_sample = 0 ∧ s.adc.refractory = 20 ∧ s.adc.sample_counter = 0 →
        s.reset_adc_state.adc = init_state
        ∧ detect_all score s.reset_adc_state.adc xs = detect_all score init_state xs) := by
  have h1 : s.reset_adc_state.adc
      = { init_state with
          prev_sample := s.adc.prev_sample
          refractory := s.adc.refractory
          sample_counter := s.adc.sample_counter } := rfl
  refine ⟨h1, rfl, rfl, rfl, rfl, ?_⟩
  rintro ⟨hp, hr, hc⟩
  have h2 : s.reset_adc_state.adc = init_state := by
    rw [h1, hp, hr, hc]
    rfl
  exact ⟨h2, by rw [h2]⟩

/-! ## Sampler cycle -/

/-- For a reading of at most 3276 the sample written is 10 times the reading,
in the slot at the cursor. -/
theorem sample_is_ten_times_reading (cali : Option (Int → Int)) (s : AdcState) (raw : Int)
    (hlen : s.adc_buffer.length = 256) (hidx : s.buffer_index < 256)
    (h0 : 0 ≤ sampling_voltage cali raw) (h1 : sampling_voltage cali raw ≤ 3276) :
    (adc_sampling_cycle cali s raw).adc_buffer[s.buffer_index]?
      = some (sampling_voltage cali raw * 10) := by
  have h16 : to_int16 (sampling_voltage cali raw * 10) = sampling_voltage cali raw * 10 := by
    unfold to_int16
    omega
  simp only [adc_sampling_cycle, h16]
  rw [List.getElem?_set]
  simp [hlen, hidx]

/-- C22 (the code at the failing input). With no calibration handle and the raw
reading 3277, which lies in the 12-bit range, the reading used is 3277 and
`10 * 3277 = 32770` does not fit `int16_t`: the sample written at the cursor
(slot 0 of a fresh buffer) is -32766. -/
theorem sample_wraps_above_3276 :
    sampling_voltage none 3277 = 3277
    ∧ (0 : Int) ≤ 3277 ∧ (3277 : Int) ≤ 4095
    ∧ (adc_sampling_cycle none init_state 3277).adc_buffer[init_state.buffer_index]?
        = some (-32766)
    ∧ (adc_sampling_cycle none init_state 3277).adc_buffer[init_state.buffer_index]?
        ≠ some (10 * 3277)
    ∧ (adc_sampling_cycle none init_state 4095).adc_buffer[init_state.buffer_index]?
        = some (-24586) := by
  refine ⟨rfl, by decide, by decide, ?_, ?_, ?_⟩
  · decide!
  · decide!
  · decide!

/-- For a cursor from 1 to 255 both indices of a cycle are in range: the slot
written and the one before it. -/
theorem sampling_indices_of_pos (b : Nat) (h1 : 1 ≤ b) (h2 : b < 256) :
    sampling_indices b = [b, b - 1] := by
  have h : sampling_log_idx (((b + 1) % UINT32_MOD) % BUFFER_SIZE) = b - 1 := by
    simp only [sampling_log_idx, sampling_prev_idx, UINT32_MOD, BUFFER_SIZE]
    omega
  unfold sampling_indices
  rw [h]

/-- C26 (the code at the failing input). With the cursor at 0 the cycle writes
slot 0 and advances the cursor to 1; `prev_idx` is 0 and the log statement reads
`adc_buffer[prev_idx - 1]`, whose index in `size_t` arithmetic is 4294967295,
outside `[0,256)`. -/
theorem log_read_out_of_bounds_at_cursor_zero :
    sampling_indices 0 = [0, 4294967295]
    ∧ sampling_prev_idx (adc_sampling_cycle none init_state 0).buffer_index = 0
    ∧ sampling_log_idx (adc_sampling_cycle none init_state 0).buffer_index = 4294967295
    ∧ ¬ (4294967295 < 256)
    ∧ (adc_sampling_cycle none init_state 0).adc_buffer[
        sampling_log_idx (adc_sampling_cycle none init_state 0).buffer_index]? = none := by
  have hlen : (adc_sampling_cycle none init_state 0).adc_buffer.length = 256 := by
    show ((List.replicate BUFFER_SIZE (0 : Int)).set _ _).length = 256
    rw [List.length_set, List.length_replicate]
    rfl
  have hidx : sampling_log_idx (adc_sampling_cycle none init_state 0).buffer_index
      = 4294967295 := by decide
  refine ⟨by decide, by decide, hidx, by decide, ?_⟩
  rw [hidx, List.getElem?_eq_none]
  rw [hlen]
  decide

/-! ## Notification task -/

theorem land_255 (v : Nat) : v &&& 0xFF = v % 256 := by
  have h := Nat.and_pow_two_sub_one_eq_mod v 8
  simpa using h

theorem pack_blink_data_eq (v : Nat) :
    pack_blink_data v = [v % 256, v / 256 % 256, v / 65536 % 256, v / 16777216 % 256] := by
  unfold pack_blink_data
  rw [land_255, land_255, land_255, land_255, Nat.shiftRight_eq_div_pow,
    Nat.shiftRight_eq_div_pow, Nat.shiftRight_eq_div_pow]
  simp only [Nat.mod_mod]

/-- C23. For every 32-bit `blink_count` value `v`, the four bytes `b0..b3` that
`ble_notifications` packs are each in `[0,255]` and satisfy
`b0 + 256*b1 + 65536*b2 + 16777216*b3 = v` (little-endian); for `v = 258` the
bytes are 02 01 00 00, and `attention_level` (a `uint8_t` value `a`) is sent as
the single byte equal to its value. -/
theorem pack_blink_data_little_endian (v a : Nat) (hv : v < 4294967296) (ha : a < 256) :
    pack_blink_data v
        = [v % 256, v / 256 % 256, v / 65536 % 256, v / 16777216 % 256]
    ∧ (∀ x ∈ pack_blink_data v, x < 256)
    ∧ v % 256 + 256 * (v / 256 % 256) + 65536 * (v / 65536 % 256)
        + 16777216 * (v / 16777216 % 256) = v
    ∧ pack_blink_data 258 = [2, 1, 0, 0]
    ∧ pack_attn_data a = [a] := by
  have h := pack_blink_data_eq v
  refine ⟨h, ?_, by omega, by decide, ?_⟩
  · intro x hx
    rw [h] at hx
    simp only [List.mem_cons, List.mem_singleton, List.not_mem_nil, or_false] at hx
    omega
  · unfold pack_attn_data
    rw [Nat.mod_eq_of_lt ha]

/-- Witness for C23: the values of the test, `blink_count = 258` and
`attention_level = 85`. -/
theorem pack_blink_data_little_endian_witness :
    258 < 4294967296 ∧ 85 < 256
    ∧ pack_blink_data 258
        = [258 % 256, 258 / 256 % 256, 258 / 65536 % 256, 258 / 16777216 % 256]
    ∧ (∀ x ∈ pack_blink_data 258, x < 256)
    ∧ 258 % 256 + 256 * (258 / 256 % 256) + 65536 * (258 / 65536 % 256)
        + 16777216 * (258 / 16777216 % 256) = 258
    ∧ pack_blink_data 258 = [2, 1, 0, 0]
    ∧ pack_attn_data 85 = [85] :=
  ⟨by decide, by decide, pack_blink_data_little_endian 258 85 (by decide) (by decide)⟩

/-- C24 (counterexample). A peer is connected and both handles are assigned; the
value last observed is 5 and `blink_count` is 0 (as after `reset_adc_state`): the
two differ, but the pass sends nothing and keeps 5 as the value last
observed. -/
theorem lower_blink_count_not_sent :
    ({ init_ble_state with conn_id := 0, blink_handle := 42, attention_handle := 43, last_blink := 5 }
        : BleState).conn_id ≠ 0xFFFF
    ∧ (0 : Nat) ≠ ({ init_ble_state with conn_id := 0, blink_handle := 42, attention_handle := 43, last_blink := 5 }
        : BleState).last_blink
    ∧ (ble_notifications_pass ({ init_ble_state with conn_id := 0, blink_handle := 42, attention_handle := 43, last_blink := 5 }
        : BleState) 0 0).2 = []
    ∧ (ble_notifications_pass ({ init_ble_state with conn_id := 0, blink_handle := 42, attention_handle := 43, last_blink := 5 }
        : BleState) 0 0).1.last_blink = 5 := by
  decide

/-- C24 (amended). While a peer is connected and both characteristic handles are
assigned, each polling pass of `ble_notifications` sends a blink-count update
whenever `blink_count` is greater than the value it last observed and an
attention update whenever `attention_level` differs from the value it last
observed, in this order, records the values sent as last observed, and sends
nothing and records nothing for a `blink_count` that is not greater or an
`attention_level` that has not changed. -/
theorem notification_pass_spec (b : BleState) (blink_count attention_level : Nat)
    (hconn : b.conn_id ≠ 0xFFFF) (hb : b.blink_handle ≠ 0) (ha : b.attention_handle ≠ 0) :
    (ble_notifications_pass b blink_count attention_level).2
        = (if blink_count > b.last_blink then [blink_indication b blink_count] else [])
          ++ (if attention_level ≠ b.last_attention then [attention_indication b attention_level] else [])
    ∧ (ble_notifications_pass b blink_count attention_level).1.last_blink
        = (if blink_count > b.last_blink then blink_count else b.last_blink)
    ∧ (ble_notifications_pass b blink_count attention_level).1.last_attention
        = (if attention_level ≠ b.last_attention then attention_level else b.last_attention) := by
  unfold ble_notifications_pass
  rw [if_pos ⟨hconn, hb, ha⟩]
  exact ⟨rfl, rfl, rfl⟩

/-- Witness for C24: connected, handles 42 and 43, nothing observed yet,
`blink_count = 1` and `attention_level = 7`. -/
theorem notification_pass_spec_witness :
    ({ init_ble_state with conn_id := 0, blink_handle := 42, attention_handle := 43 } : BleState).conn_id ≠ 0xFFFF ∧ ({ init_ble_state with conn_id := 0, blink_handle := 42, attention_handle := 43 } : BleState).blink_handle ≠ 0 ∧ ({ init_ble_state with conn_id := 0, blink_handle := 42, attention_handle := 43 } : BleState).attention_handle ≠ 0
    ∧ (ble_notifications_pass ({ init_ble_state with conn_id := 0, blink_handle := 42, attention_handle := 43 } : BleState) 1 7).2
        = (if 1 > ({ init_ble_state with conn_id := 0, blink_handle := 42, attention_handle := 43 } : BleState).last_blink then [blink_indication ({ init_ble_state with conn_id := 0, blink_handle := 42, attention_handle := 43 } : BleState) 1] else [])
          ++ (if 7 ≠ ({ init_ble_state with conn_id := 0, blink_handle := 42, attention_handle := 43 } : BleState).last_attention then [attention_indication ({ init_ble_state with conn_id := 0, blink_handle := 42, attention_handle := 43 } : BleState) 7] else [])
    ∧ (ble_notifications_pass ({ init_ble_state with conn_id := 0, blink_handle := 42, attention_handle := 43 } : BleState) 1 7).1.last_blink
        = (if 1 > ({ init_ble_state with conn_id := 0, blink_handle := 42, attention_handle := 43 } : BleState).last_blink then 1 else ({ init_ble_state with conn_id := 0, blink_handle := 42, attention_handle := 43 } : BleState).last_blink)
    ∧ (ble_notifications_pass ({ init_ble_state with conn_id := 0, blink_handle := 42, attention_handle := 43 } : BleState) 1 7).1.last_attention
        = (if 7 ≠ ({ init_ble_state with conn_id := 0, blink_handle := 42, attention_handle := 43 } : BleState).last_attention then 7 else ({ init_ble_state with conn_id := 0, blink_handle := 42, attention_handle := 43 } : BleState).last_attention) :=
  ⟨by decide, by decide, by decide,
   notification_pass_spec ({ init_ble_state with conn_id := 0, blink_handle := 42, attention_handle := 43 } : BleState) 1 7 (by decide) (by decide) (by decide)⟩

/-- Whatever the handles recorded, every call of a pass carries one of the two
characteristic UUIDs as its attribute handle. -/
theorem indication_attr_handle (b : BleState) (blink_count attention_level : Nat)
    (i : Indication) (hi : i ∈ (ble_notifications_pass b blink_count attention_level).2) :
    i.attr_handle = CHAR_UUID_BLINK_COUNT ∨ i.attr_handle = CHAR_UUID_ATTENTION_LEVEL := by
  unfold ble_notifications_pass at hi
  split at hi
  · simp only [List.mem_append] at hi
    rcases hi with h | h
    · split at h
      · rw [List.mem_singleton] at h
        left; rw [h]; rfl
      · simp at h
    · split at h
      · rw [List.mem_singleton] at h
        right; rw [h]; rfl
      · simp at h
  · simp at hi

/-- C27 (the code at the failing input). The handler receives, in order, REG,
CREATE, ADD_CHAR (ok, handle 42), ADD_CHAR (ok, handle 44), START and CONNECT
(connection 0): it records `blink_handle = 42` and `attention_handle = 44`.
The next pass with `blink_count = 1` and `attention_level = 7` sends both
updates with the attribute handles 0x2A56 = 10838 and 0x2A57 = 10839, the
characteristic UUIDs, not with 42 and 44. -/
theorem indication_uses_uuid_as_handle :
    (handle_all init_ble_state 3
      [GattsEvent.reg, GattsEvent.create 40, GattsEvent.add_char true 42,
        GattsEvent.add_char true 44, GattsEvent.start, GattsEvent.connect 0]).blink_handle = 42
    ∧ (handle_all init_ble_state 3
      [GattsEvent.reg, GattsEvent.create 40, GattsEvent.add_char true 42,
        GattsEvent.add_char true 44, GattsEvent.start, GattsEvent.connect 0]).attention_handle = 44
    ∧ (handle_all init_ble_state 3
      [GattsEvent.reg, GattsEvent.create 40, GattsEvent.add_char true 42,
        GattsEvent.add_char true 44, GattsEvent.start, GattsEvent.connect 0]).conn_id = 0
    ∧ (ble_notifications_pass (handle_all init_ble_state 3
      [GattsEvent.reg, GattsEvent.create 40, GattsEvent.add_char true 42,
        GattsEvent.add_char true 44, GattsEvent.start, GattsEvent.connect 0]) 1 7).2
        = [{ gatts_if := 3, conn_id := 0, attr_handle := 10838, value := [1, 0, 0, 0],
             need_confirm := false },
           { gatts_if := 3, conn_id := 0, attr_handle := 10839, value := [7],
             need_confirm := false }]
    ∧ (10838 : Nat) ≠ 42 ∧ (10839 : Nat) ≠ 44 := by
  decide

/-! ## Mutex discipline -/

/-- The Sampler's writes and the Processor's read of the latest sample are made
while the task holds the mutex: on a cycle that does not reach the attention
window nothing is accessed without it by `adc_filtering`, and the Sampler's
only accesses without it are the two of its log statement. -/
theorem locked_accesses (s : AdcState) (h : ¬ 50 ≤ (s.sample_counter + 1) % UINT32_MOD) :
    unlocked_accesses false (adc_filtering_actions s) = []
    ∧ unlocked_accesses false (adc_sampling_actions.take 6) = [] := by
  unfold adc_filtering_actions detect_events_actions
  rw [if_neg h]
  exact ⟨rfl, rfl⟩

/-- C25 (the code at the failing input). On the 50th cycle of `adc_filtering`
(49 calls of `detect_events` came before), `detect_events` passes the whole
buffer to `compute_alpha_score` after the mutex was given back: that read is
made without holding `adc_mutex`.  The log statement of `adc_sampling` reads the
cursor and a slot after `xSemaphoreGive` as well. -/
theorem snapshot_read_without_mutex (score : List Int → Nat → Nat) :
    (run score init_state (List.replicate 49 (Event.detect 0))).sample_counter = 49
    ∧ unlocked_accesses false
        (adc_filtering_actions (run score init_state (List.replicate 49 (Event.detect 0))))
        = [Action.buffer_read]
    ∧ unlocked_accesses false adc_sampling_actions
        = [Action.cursor_read, Action.buffer_read]
    ∧ unlocked_accesses false (adc_filtering_actions init_state) = [] := by
  have hc : (run score init_state (List.replicate 49 (Event.detect 0))).sample_counter = 49 := by
    rw [run_sample_counter]
    decide
  refine ⟨hc, ?_, rfl, rfl⟩
  unfold adc_filtering_actions detect_events_actions
  rw [hc, if_pos (by decide)]
  rfl

end EEG
